import Mathlib

/-!
# surfaceSubset

A shallow embedding of the face selection of
`applications/utilities/surface/surfaceSubset/surfaceSubset.C`
(OpenFOAM-2.1.x) and the properties of its selection mask.

The utility reads a dictionary of selection criteria, accumulates a
per-face boolean mask `facesToSubset` over the surface `surf1`, optionally
inverts it and hands it to `triSurface::subsetMesh`.

Conventions of the embedding:

* a `label` is an integer; list sizes are natural numbers;
* coordinates are exact rationals;
* every subscript `l[i]` of the source is checked: a subscript outside the
  list stops the run with `FatalError.checkIndex`, as `UList::checkIndex`
  does in a debug build;
* a run that stops keeps the mask it had reached (`Abort.facesToSubset`).
-/

namespace surfaceSubset

/-! ## Data model -/

/-- A list of labels; a `label` of the source is an integer. -/
abbrev labelList := List Int

abbrev boolList := List Bool

/-- A position in space, with exact rational coordinates. -/
structure point where
  x : Rat
  y : Rat
  z : Rat
deriving DecidableEq

abbrev pointField := List point

/-- A triangle: the labels of its three vertices in `points`. -/
structure triFace where
  a : Int
  b : Int
  c : Int
deriving DecidableEq

/-- Modelled from the spec: the enumeration `indexedOctree::volumeType` is
declared outside the sources at hand; the spec names the results of a
classification query INSIDE, OUTSIDE and MIXED. -/
inductive volumeType where
  | MIXED
  | INSIDE
  | OUTSIDE
deriving DecidableEq

/-- The surface `surf1`: its points, its triangles and the adjacency tables
the utility reads (`pointFaces()`, `edgeFaces()`, `faceFaces()`). The class
`triSurface` is declared outside the sources at hand, so the tables are taken
as given. -/
structure triSurface where
  points : pointField
  faces : List triFace
  pointFaces : List labelList
  edgeFaces : List labelList
  faceFaces : List labelList

/-- The number of faces, `surf1.size()`. -/
def triSurface.size (surf1 : triSurface) : Nat := surf1.faces.length

/-- The number of points of the patch, `surf1.nPoints()`: `pointFaces()` has one
entry per point. -/
def triSurface.nPoints (surf1 : triSurface) : Nat := surf1.pointFaces.length

/-- The number of edges, `surf1.nEdges()`: `edgeFaces()` has one entry per
edge. -/
def triSurface.nEdges (surf1 : triSurface) : Nat := surf1.edgeFaces.length

/-- Every label stored in an adjacency table is a face index of the surface. -/
def validFaceLabels (surf1 : triSurface) (table : List labelList) : Prop :=
  ∀ curFaces ∈ table, ∀ f ∈ curFaces, 0 ≤ f ∧ f < (surf1.size : Int)

instance (surf1 : triSurface) (table : List labelList) :
    Decidable (validFaceLabels surf1 table) := by
  unfold validFaceLabels
  infer_instance

/-- The invariant of the adjacency tables of a surface: they hold only valid
face indices, and `faceFaces()` has one entry per face. -/
def triSurface.wellFormed (surf1 : triSurface) : Prop :=
  validFaceLabels surf1 surf1.pointFaces
    ∧ validFaceLabels surf1 surf1.edgeFaces
    ∧ validFaceLabels surf1 surf1.faceFaces
    ∧ surf1.faceFaces.length = surf1.size

instance (surf1 : triSurface) : Decidable surf1.wellFormed := by
  unfold triSurface.wellFormed
  infer_instance

/-- The optional sub-dictionary `surface`: only its switch `outside` enters the
selection; the octree built from the named surface is the query
`getVolumeType`, a parameter of the run. -/
structure surfaceDict where
  outside : Bool
deriving DecidableEq

/-- The entries of `surfaceSubsetDict` once looked up. -/
structure surfaceSubsetDict where
  localPoints : labelList
  edges : labelList
  faces : labelList
  zone : pointField
  addFaceNeighbours : Bool
  invertSelection : Bool
  surface : Option surfaceDict

/-- The reasons for which a run stops. The first four are the `FatalErrorIn`
calls of the utility; `checkIndex` is a subscript outside its list. -/
inductive FatalError where
  | zoneSpec (zone : pointField)
  | localPointOutOfRange (markedPoint : Int) (nPoints : Nat)
  | edgeOutOfRange (markedEdge : Int) (nEdges : Nat)
  | faceOutOfRange (markedFace : Int) (size : Nat)
  | checkIndex (i : Int) (size : Nat)
deriving DecidableEq

/-- The error is the zone error of lines 89-96. -/
def FatalError.isZoneSpec : FatalError → Bool
  | .zoneSpec _ => true
  | _ => false

/-- The error is a subscript outside its list. -/
def FatalError.isCheckIndex : FatalError → Bool
  | .checkIndex _ _ => true
  | _ => false

/-- A stopped criterion: the error and the mask as it was at that moment. -/
structure Abort where
  error : FatalError
  facesToSubset : boolList
deriving DecidableEq

/-- Face `f` is selected by the mask. -/
def selected (facesToSubset : boolList) (f : Nat) : Bool :=
  facesToSubset.getD f false

/-- The position `points[l]`. The data model keeps the vertex labels of a face
in range; a label outside the field reads the origin here. -/
def pointAt (points : pointField) (l : Int) : point :=
  if 0 ≤ l then points.getD l.toNat ⟨0, 0, 0⟩ else ⟨0, 0, 0⟩

/-- Modelled from the spec: `triFace::centre` is declared outside the sources
at hand; the spec gives the centroid as the mean of the three vertex
positions. -/
def triFace.centre (tri : triFace) (points : pointField) : point :=
  let pa := pointAt points tri.a
  let pb := pointAt points tri.b
  let pc := pointAt points tri.c
  ⟨(pa.x + pb.x + pc.x) / 3, (pa.y + pb.y + pc.y) / 3, (pa.z + pb.z + pc.z) / 3⟩

/-! ## The criteria, lines 116-335 -/

/-- The inner loop of lines 141-144 and 178-181:
`forAll(curFaces, i) facesToSubset[curFaces[i]] = true`. -/
def markFaces : labelList → boolList → Except Abort boolList
  | [], facesToSubset => .ok facesToSubset
  | f :: curFaces, facesToSubset =>
    if 0 ≤ f ∧ f < (facesToSubset.length : Int) then
      markFaces curFaces (facesToSubset.set f.toNat true)
    else
      .error ⟨.checkIndex f facesToSubset.length, facesToSubset⟩

/-- The loop of lines 122-145 over `markedPoints`. -/
def pointsLoop (surf1 : triSurface) : labelList → boolList → Except Abort boolList
  | [], facesToSubset => .ok facesToSubset
  | markedPoint :: markedPoints, facesToSubset =>
    if markedPoint < 0 ∨ markedPoint ≥ (surf1.nPoints : Int) then
      .error ⟨.localPointOutOfRange markedPoint surf1.nPoints, facesToSubset⟩
    else
      match surf1.pointFaces[markedPoint.toNat]? with
      | none => .error ⟨.checkIndex markedPoint surf1.pointFaces.length, facesToSubset⟩
      | some curFaces =>
        match markFaces curFaces facesToSubset with
        | .error e => .error e
        | .ok facesToSubset => pointsLoop surf1 markedPoints facesToSubset

/-- Lines 116-146: pick up faces connected to `localPoints`. -/
def pickPoints (surf1 : triSurface) (markedPoints : labelList)
    (facesToSubset : boolList) : Except Abort boolList :=
  if markedPoints.length ≠ 0 then
    pointsLoop surf1 markedPoints facesToSubset
  else
    .ok facesToSubset

/-- The loop of lines 160-182 over `markedEdges`. -/
def edgesLoop (surf1 : triSurface) : labelList → boolList → Except Abort boolList
  | [], facesToSubset => .ok facesToSubset
  | markedEdge :: markedEdges, facesToSubset =>
    if markedEdge < 0 ∨ markedEdge ≥ (surf1.nEdges : Int) then
      .error ⟨.edgeOutOfRange markedEdge surf1.nEdges, facesToSubset⟩
    else
      match surf1.edgeFaces[markedEdge.toNat]? with
      | none => .error ⟨.checkIndex markedEdge surf1.edgeFaces.length, facesToSubset⟩
      | some curFaces =>
        match markFaces curFaces facesToSubset with
        | .error e => .error e
        | .ok facesToSubset => edgesLoop surf1 markedEdges facesToSubset

/-- Lines 154-183: pick up faces connected to `edges`. -/
def pickEdges (surf1 : triSurface) (markedEdges : labelList)
    (facesToSubset : boolList) : Except Abort boolList :=
  if markedEdges.length ≠ 0 then
    edgesLoop surf1 markedEdges facesToSubset
  else
    .ok facesToSubset

/-- The test of lines 201-209: the centre lies in the closed box. -/
def inZone (min max centre : point) : Bool :=
  decide (centre.x ≥ min.x) && decide (centre.y ≥ min.y) && decide (centre.z ≥ min.z)
    && decide (centre.x ≤ max.x) && decide (centre.y ≤ max.y) && decide (centre.z ≤ max.z)

/-- The loop of lines 197-213, `forAll(surf1, faceI)`, over the face indices
still to visit. -/
def zoneLoop (surf1 : triSurface) (min max : point) :
    List Nat → boolList → Except Abort boolList
  | [], facesToSubset => .ok facesToSubset
  | faceI :: faceIs, facesToSubset =>
    match surf1.faces[faceI]? with
    | none => .error ⟨.checkIndex faceI surf1.size, facesToSubset⟩
    | some tri =>
      if inZone min max (tri.centre surf1.points) then
        if faceI < facesToSubset.length then
          zoneLoop surf1 min max faceIs (facesToSubset.set faceI true)
        else
          .error ⟨.checkIndex faceI facesToSubset.length, facesToSubset⟩
      else
        zoneLoop surf1 min max faceIs facesToSubset

/-- Lines 190-214: pick up faces with centre inside `zone`; the criterion runs
only for a zone of exactly two points. -/
def pickZone (surf1 : triSurface) (markedZone : pointField)
    (facesToSubset : boolList) : Except Abort boolList :=
  match markedZone with
  | [min, max] => zoneLoop surf1 min max (List.range surf1.size) facesToSubset
  | _ => .ok facesToSubset

/-- The test of lines 273-278: the volume type is the requested side. -/
def onRequestedSide (outside : Bool) (t : volumeType) : Bool :=
  if outside then decide (t = volumeType.OUTSIDE) else decide (t = volumeType.INSIDE)

/-- The loop of lines 264-283, `forAll(facesToSubset, faceI)`, over the face
indices still to visit. -/
def surfaceLoop (getVolumeType : point → volumeType) (surf1 : triSurface)
    (outside : Bool) : List Nat → boolList → Except Abort boolList
  | [], facesToSubset => .ok facesToSubset
  | faceI :: faceIs, facesToSubset =>
    match facesToSubset[faceI]? with
    | none => .error ⟨.checkIndex faceI facesToSubset.length, facesToSubset⟩
    | some true => surfaceLoop getVolumeType surf1 outside faceIs facesToSubset
    | some false =>
      match surf1.faces[faceI]? with
      | none => .error ⟨.checkIndex faceI surf1.size, facesToSubset⟩
      | some tri =>
        let fc := tri.centre surf1.points
        let t := getVolumeType fc
        if onRequestedSide outside t then
          surfaceLoop getVolumeType surf1 outside faceIs (facesToSubset.set faceI true)
        else
          surfaceLoop getVolumeType surf1 outside faceIs facesToSubset

/-- Lines 221-284: pick up faces on the requested side of the surface named in
the sub-dictionary `surface`, when the dictionary has one. -/
def pickSurface (getVolumeType : point → volumeType) (surf1 : triSurface)
    (surface : Option surfaceDict) (facesToSubset : boolList) : Except Abort boolList :=
  match surface with
  | none => .ok facesToSubset
  | some surfDict =>
    surfaceLoop getVolumeType surf1 surfDict.outside
      (List.range facesToSubset.length) facesToSubset

/-- The inner loop of lines 323-332 over the neighbours `curFaces` of a marked
face: a neighbour not yet selected is selected and counted. -/
def neighboursLoop : labelList → boolList → Nat → Except Abort (boolList × Nat)
  | [], facesToSubset, nFaceNeighbours => .ok (facesToSubset, nFaceNeighbours)
  | faceI :: curFaces, facesToSubset, nFaceNeighbours =>
    if 0 ≤ faceI ∧ faceI < (facesToSubset.length : Int) then
      if selected facesToSubset faceI.toNat then
        neighboursLoop curFaces facesToSubset nFaceNeighbours
      else
        neighboursLoop curFaces (facesToSubset.set faceI.toNat true) (nFaceNeighbours + 1)
    else
      .error ⟨.checkIndex faceI facesToSubset.length, facesToSubset⟩

/-- The loop of lines 299-334 over `markedFaces`. -/
def facesLoop (surf1 : triSurface) (addFaceNeighbours : Bool) :
    labelList → boolList → Nat → Except Abort (boolList × Nat)
  | [], facesToSubset, nFaceNeighbours => .ok (facesToSubset, nFaceNeighbours)
  | markedFace :: markedFaces, facesToSubset, nFaceNeighbours =>
    if markedFace < 0 ∨ markedFace ≥ (surf1.size : Int) then
      .error ⟨.faceOutOfRange markedFace surf1.size, facesToSubset⟩
    else if ¬ markedFace < (facesToSubset.length : Int) then
      .error ⟨.checkIndex markedFace facesToSubset.length, facesToSubset⟩
    else
      let facesToSubset := facesToSubset.set markedFace.toNat true
      if addFaceNeighbours then
        match surf1.faceFaces[markedFace.toNat]? with
        | none => .error ⟨.checkIndex markedFace surf1.faceFaces.length, facesToSubset⟩
        | some curFaces =>
          match neighboursLoop curFaces facesToSubset nFaceNeighbours with
          | .error e => .error e
          | .ok (facesToSubset, nFaceNeighbours) =>
            facesLoop surf1 addFaceNeighbours markedFaces facesToSubset nFaceNeighbours
      else
        facesLoop surf1 addFaceNeighbours markedFaces facesToSubset nFaceNeighbours

/-- Lines 292-335: pick up the specified `faces`, with their neighbours when
`addFaceNeighbours` is on; `nFaceNeighbours` starts at 0. -/
def pickFaces (surf1 : triSurface) (markedFaces : labelList) (addFaceNeighbours : Bool)
    (facesToSubset : boolList) : Except Abort (boolList × Nat) :=
  if markedFaces.length ≠ 0 then
    facesLoop surf1 addFaceNeighbours markedFaces facesToSubset 0
  else
    .ok (facesToSubset, 0)

/-- Lines 344-352: the inversion of the selection. -/
def invert (invertSelection : Bool) (facesToSubset : boolList) : boolList :=
  if invertSelection then
    facesToSubset.map (fun b => if b then false else true)
  else
    facesToSubset

/-- The mask and the counter at the end of the selection. -/
structure selection where
  facesToSubset : boolList
  nFaceNeighbours : Nat
deriving DecidableEq

/-- Lines 109-352: the mask starts all false with one entry per face, the
five criteria run in the order of the source, then the inversion. -/
def selectFaces (getVolumeType : point → volumeType) (surf1 : triSurface)
    (dict : surfaceSubsetDict) : Except Abort selection :=
  let facesToSubset : boolList := List.replicate surf1.size false
  match pickPoints surf1 dict.localPoints facesToSubset with
  | .error e => .error e
  | .ok facesToSubset =>
    match pickEdges surf1 dict.edges facesToSubset with
    | .error e => .error e
    | .ok facesToSubset =>
      match pickZone surf1 dict.zone facesToSubset with
      | .error e => .error e
      | .ok facesToSubset =>
        match pickSurface getVolumeType surf1 dict.surface facesToSubset with
        | .error e => .error e
        | .ok facesToSubset =>
          match pickFaces surf1 dict.faces dict.addFaceNeighbours facesToSubset with
          | .error e => .error e
          | .ok (facesToSubset, nFaceNeighbours) =>
            .ok ⟨invert dict.invertSelection facesToSubset, nFaceNeighbours⟩

/-! ## Compaction and the whole run -/

/-- The subset surface: its points and its triangles. -/
structure subsetSurface where
  points : pointField
  faces : List triFace
deriving DecidableEq

/-- What `subsetMesh` hands back: the surface and the two maps. -/
structure subset where
  surf2 : subsetSurface
  pointMap : labelList
  faceMap : labelList
deriving DecidableEq

/-- The vertex labels of a triangle. -/
def triFace.labels (tri : triFace) : labelList := [tri.a, tri.b, tri.c]

/-- Modelled from the spec: `triSurface::subsetMesh` is declared outside the
sources at hand. Following the spec's Mesh Compactor: the retained faces are
the faces whose mask entry is true, in ascending order (`faceMap`); the
retained points are the distinct point labels the retained faces refer to, in
ascending order (`pointMap`); the new points are the old points at `pointMap`;
each retained face has its three labels replaced by their positions in
`pointMap`. -/
def subsetMesh (surf1 : triSurface) (facesToSubset : boolList) : subset :=
  let faceMap : List Nat := (List.range surf1.size).filter (fun f => selected facesToSubset f)
  let retained : List triFace := faceMap.filterMap (fun f => surf1.faces[f]?)
  let pointMap : labelList :=
    ((retained.map triFace.labels).flatten.dedup).insertionSort (fun p q => p ≤ q)
  let renumber (p : Int) : Int := (pointMap.indexOf p : Nat)
  { surf2 :=
      { points := pointMap.map (pointAt surf1.points)
        faces := retained.map (fun tri => ⟨renumber tri.a, renumber tri.b, renumber tri.c⟩) }
    pointMap := pointMap
    faceMap := faceMap.map (fun f : Nat => (f : Int)) }

/-- What a completed run leaves: the final mask, the counter reported for
`addFaceNeighbours`, and the subset surface with its maps. -/
structure output where
  facesToSubset : boolList
  nFaceNeighbours : Nat
  subset : subset
deriving DecidableEq

/-- The run of the utility from the looked-up dictionary on: the zone check of
lines 89-96, the selection of lines 109-352, the compaction of lines 355-361. -/
def main (getVolumeType : point → volumeType) (surf1 : triSurface)
    (dict : surfaceSubsetDict) : Except FatalError output :=
  if dict.zone.length ≠ 0 ∧ dict.zone.length ≠ 2 then
    .error (.zoneSpec dict.zone)
  else
    match selectFaces getVolumeType surf1 dict with
    | .error e => .error e.error
    | .ok sel =>
      .ok ⟨sel.facesToSubset, sel.nFaceNeighbours, subsetMesh surf1 sel.facesToSubset⟩

/-! ## A tetrahedron -/

/-- A tetrahedron: 4 points, 4 faces `(0,1,2) (0,1,3) (0,2,3) (1,2,3)`, 6 edges
`01 02 03 12 13 23`. -/
def tetrahedron : triSurface where
  points := [⟨0, 0, 0⟩, ⟨1, 0, 0⟩, ⟨0, 1, 0⟩, ⟨0, 0, 1⟩]
  faces := [⟨0, 1, 2⟩, ⟨0, 1, 3⟩, ⟨0, 2, 3⟩, ⟨1, 2, 3⟩]
  pointFaces := [[0, 1, 2], [0, 1, 3], [0, 2, 3], [1, 2, 3]]
  edgeFaces := [[0, 1], [0, 2], [1, 2], [0, 3], [1, 3], [2, 3]]
  faceFaces := [[1, 2, 3], [0, 2, 3], [0, 1, 3], [0, 1, 2]]

/-- A dictionary with no criterion set. -/
def emptyDict : surfaceSubsetDict where
  localPoints := []
  edges := []
  faces := []
  zone := []
  addFaceNeighbours := false
  invertSelection := false
  surface := none

/-- A dictionary with point 0, edge 5, face 3, a reference surface and the
inversion. -/
def invertedDict : surfaceSubsetDict where
  localPoints := [0]
  edges := [5]
  faces := [3]
  zone := []
  addFaceNeighbours := false
  invertSelection := true
  surface := some ⟨true⟩

/-- A dictionary with point 0, edge 5, face 3 with its neighbours, and a
reference surface. -/
def neighboursDict : surfaceSubsetDict where
  localPoints := [0]
  edges := [5]
  faces := [3]
  zone := []
  addFaceNeighbours := true
  invertSelection := false
  surface := some ⟨false⟩

/-- A dictionary with a zone of one point and labels out of range. -/
def badZoneDict : surfaceSubsetDict where
  localPoints := [9]
  edges := [-1]
  faces := [4]
  zone := [⟨0, 0, 0⟩]
  addFaceNeighbours := true
  invertSelection := false
  surface := none

/-- A dictionary listing point 4. -/
def badPointDict : surfaceSubsetDict where
  localPoints := [4]
  edges := []
  faces := []
  zone := []
  addFaceNeighbours := false
  invertSelection := false
  surface := none

/-- A dictionary with the inversion and no criterion. -/
def invertOnlyDict : surfaceSubsetDict where
  localPoints := []
  edges := []
  faces := []
  zone := []
  addFaceNeighbours := false
  invertSelection := true
  surface := none

/-- A surface of one triangle whose point field holds a fourth point that no
face refers to. -/
def looseSurface : triSurface where
  points := [⟨0, 0, 0⟩, ⟨1, 0, 0⟩, ⟨0, 1, 0⟩, ⟨5, 5, 5⟩]
  faces := [⟨0, 1, 2⟩]
  pointFaces := [[0], [0], [0]]
  edgeFaces := [[0], [0], [0]]
  faceFaces := [[]]

/-- A dictionary that lists point 9, edge -1 and face 4, all out of range on
the tetrahedron. -/
def badLabelsDict : surfaceSubsetDict where
  localPoints := [9]
  edges := [-1]
  faces := [4]
  zone := []
  addFaceNeighbours := true
  invertSelection := false
  surface := none

/-- A classification query that answers MIXED everywhere. -/
def allMixed : point → volumeType := fun _ => volumeType.MIXED

/-! ## The selection as sets of faces -/

/-- The mask joined with a set of faces: entry `f` is true when it was true or
`f` is in the set. -/
def orMask (facesToSubset : boolList) (faceSet : Nat → Bool) : boolList :=
  (List.range facesToSubset.length).map (fun f => selected facesToSubset f || faceSet f)

/-- Label `l` is a valid index of a list of `n` entries. -/
def inRange (n : Nat) (l : Int) : Prop := 0 ≤ l ∧ l < (n : Int)

instance (n : Nat) (l : Int) : Decidable (inRange n l) := by
  unfold inRange
  infer_instance

/-- Face `f` is in `table[i]`. -/
def adjacent (table : List labelList) (i : Int) (f : Nat) : Bool :=
  decide (0 ≤ i) && (table.getD i.toNat []).contains (f : Int)

/-- The number of distinct labels of `curFaces` whose face is not selected by
the mask. -/
def newNeighbours (curFaces : labelList) (facesToSubset : boolList) : Nat :=
  (curFaces.dedup.filter (fun g => !selected facesToSubset g.toNat)).length

/-- The closed axis-aligned box `[min, max]`: `c` lies in it component-wise. -/
def inBox (min max c : point) : Prop :=
  min.x ≤ c.x ∧ c.x ≤ max.x ∧ min.y ≤ c.y ∧ c.y ≤ max.y ∧ min.z ≤ c.z ∧ c.z ≤ max.z

instance (min max c : point) : Decidable (inBox min max c) := by
  unfold inBox
  infer_instance

/-- The centroid of face `f` of the surface. -/
def faceCentre (surf1 : triSurface) (f : Nat) : point :=
  match surf1.faces[f]? with
  | some tri => tri.centre surf1.points
  | none => ⟨0, 0, 0⟩

/-- The faces of the region criterion: with a zone of two points, the faces
whose centroid lies in the closed box. -/
def zoneFaces (surf1 : triSurface) (markedZone : pointField) (f : Nat) : Bool :=
  match markedZone with
  | [min, max] => decide (inBox min max (faceCentre surf1 f))
  | _ => false

/-- The faces of the classification criterion: with a reference surface, the
faces whose centroid classifies on the requested side. -/
def surfaceFaces (getVolumeType : point → volumeType) (surf1 : triSurface)
    (surface : Option surfaceDict) (f : Nat) : Bool :=
  match surface with
  | some surfDict =>
    decide (getVolumeType (faceCentre surf1 f)
      = if surfDict.outside then volumeType.OUTSIDE else volumeType.INSIDE)
  | none => false

/-- The faces of the explicit-face criterion: the listed faces and, with
`addFaceNeighbours`, the faces of `faceFaces[g]` for the listed `g`. -/
def listedFaces (surf1 : triSurface) (markedFaces : labelList) (addFaceNeighbours : Bool)
    (f : Nat) : Bool :=
  markedFaces.contains (f : Int)
    || (addFaceNeighbours && markedFaces.any (fun g => adjacent surf1.faceFaces g f))

/-- The faces picked by the five criteria together: face `f` is in
`pointFaces[p]` for a listed point `p`, or in `edgeFaces[e]` for a listed edge
`e`, or its centroid is in the closed zone box when a zone is given, or its
centroid classifies on the requested side when a reference surface is given,
or `f` is a listed face, or `addFaceNeighbours` is on and `f` is in
`faceFaces[g]` for a listed face `g`. -/
def pickedFaces (getVolumeType : point → volumeType) (surf1 : triSurface)
    (dict : surfaceSubsetDict) (f : Nat) : Bool :=
  dict.localPoints.any (fun p => adjacent surf1.pointFaces p f)
    || dict.edges.any (fun e => adjacent surf1.edgeFaces e f)
    || zoneFaces surf1 dict.zone f
    || surfaceFaces getVolumeType surf1 dict.surface f
    || listedFaces surf1 dict.faces dict.addFaceNeighbours f

/-- The selection as a pure fold: face `f` is selected iff `invertSelection`
XOR `f` is picked by one of the criteria. -/
def pureSelected (getVolumeType : point → volumeType) (surf1 : triSurface)
    (dict : surfaceSubsetDict) (f : Nat) : Bool :=
  xor dict.invertSelection (pickedFaces getVolumeType surf1 dict f)

/-- The mask of the pure fold, one entry per face. -/
def pureMask (getVolumeType : point → volumeType) (surf1 : triSurface)
    (dict : surfaceSubsetDict) : boolList :=
  (List.range surf1.size).map (pureSelected getVolumeType surf1 dict)

/-- The five criteria of lines 116-335. -/
inductive criterion where
  | localPoints
  | edges
  | zone
  | surface
  | faces
deriving DecidableEq

/-- One criterion, as the code implements it, applied to a mask. -/
def applyCriterion (getVolumeType : point → volumeType) (surf1 : triSurface)
    (dict : surfaceSubsetDict) (c : criterion) (facesToSubset : boolList) :
    Except Abort boolList :=
  match c with
  | .localPoints => pickPoints surf1 dict.localPoints facesToSubset
  | .edges => pickEdges surf1 dict.edges facesToSubset
  | .zone => pickZone surf1 dict.zone facesToSubset
  | .surface => pickSurface getVolumeType surf1 dict.surface facesToSubset
  | .faces =>
    match pickFaces surf1 dict.faces dict.addFaceNeighbours facesToSubset with
    | .error e => .error e
    | .ok (facesToSubset, _) => .ok facesToSubset

/-- The criteria applied one after the other in the given order. -/
def applyCriteria (getVolumeType : point → volumeType) (surf1 : triSurface)
    (dict : surfaceSubsetDict) : List criterion → boolList → Except Abort boolList
  | [], facesToSubset => .ok facesToSubset
  | c :: cs, facesToSubset =>
    match applyCriterion getVolumeType surf1 dict c facesToSubset with
    | .error e => .error e
    | .ok facesToSubset => applyCriteria getVolumeType surf1 dict cs facesToSubset

/-- The faces picked by one criterion. -/
def criterionFaces (getVolumeType : point → volumeType) (surf1 : triSurface)
    (dict : surfaceSubsetDict) (c : criterion) (f : Nat) : Bool :=
  match c with
  | .localPoints => dict.localPoints.any (fun p => adjacent surf1.pointFaces p f)
  | .edges => dict.edges.any (fun e => adjacent surf1.edgeFaces e f)
  | .zone => zoneFaces surf1 dict.zone f
  | .surface => surfaceFaces getVolumeType surf1 dict.surface f
  | .faces => listedFaces surf1 dict.faces dict.addFaceNeighbours f

/-- Some label of the list lies outside `[0, n)`. -/
def outOfRange (n : Nat) (labels : labelList) : Prop :=
  ∃ i ∈ labels, i < 0 ∨ i ≥ (n : Int)

instance (n : Nat) (labels : labelList) : Decidable (outOfRange n labels) := by
  unfold outOfRange
  infer_instance

/-- The order of the source. -/
def sourceOrder : List criterion :=
  [.localPoints, .edges, .zone, .surface, .faces]

/-- The selection with the criteria in the given order: the all-false mask, the
criteria, then the inversion. -/
def selectInOrder (getVolumeType : point → volumeType) (surf1 : triSurface)
    (dict : surfaceSubsetDict) (order : List criterion) : Except Abort boolList :=
  match applyCriteria getVolumeType surf1 dict order (List.replicate surf1.size false) with
  | .error e => .error e
  | .ok facesToSubset => .ok (invert dict.invertSelection facesToSubset)

/-- The number of selected faces of a mask. -/
def nSelected (facesToSubset : boolList) : Nat := facesToSubset.count true

/-- The loop of lines 299-334 with one more counter beside `nFaceNeighbours`:
`nFresh` counts the positions of `markedFaces` at which the listed face was
not yet selected when line 315 marks it. The mask and `nFaceNeighbours` are
computed as in `facesLoop`. -/
def facesLoopCounting (surf1 : triSurface) (addFaceNeighbours : Bool) :
    labelList → boolList → Nat → Nat → Except Abort (boolList × Nat × Nat)
  | [], facesToSubset, nFaceNeighbours, nFresh => .ok (facesToSubset, nFaceNeighbours, nFresh)
  | markedFace :: markedFaces, facesToSubset, nFaceNeighbours, nFresh =>
    if markedFace < 0 ∨ markedFace ≥ (surf1.size : Int) then
      .error ⟨.faceOutOfRange markedFace surf1.size, facesToSubset⟩
    else if ¬ markedFace < (facesToSubset.length : Int) then
      .error ⟨.checkIndex markedFace facesToSubset.length, facesToSubset⟩
    else
      let nFresh := if selected facesToSubset markedFace.toNat then nFresh else nFresh + 1
      let facesToSubset := facesToSubset.set markedFace.toNat true
      if addFaceNeighbours then
        match surf1.faceFaces[markedFace.toNat]? with
        | none => .error ⟨.checkIndex markedFace surf1.faceFaces.length, facesToSubset⟩
        | some curFaces =>
          match neighboursLoop curFaces facesToSubset nFaceNeighbours with
          | .error e => .error e
          | .ok (facesToSubset, nFaceNeighbours) =>
            facesLoopCounting surf1 addFaceNeighbours markedFaces facesToSubset
              nFaceNeighbours nFresh
      else
        facesLoopCounting surf1 addFaceNeighbours markedFaces facesToSubset
          nFaceNeighbours nFresh

/-! ## Masks -/

theorem selected_eq_getElem (m : boolList) (f : Nat) (h : f < m.length) :
    selected m f = m[f] := by
  simp [selected, List.getD, List.getElem?_eq_getElem h]

theorem selected_of_le (m : boolList) (f : Nat) (h : m.length ≤ f) :
    selected m f = false := by
  simp [selected, List.getD, List.getElem?_eq_none h]

theorem selected_replicate_false (n f : Nat) : selected (List.replicate n false) f = false := by
  by_cases hf : f < n
  · rw [selected_eq_getElem _ _ (by simpa using hf)]
    simp
  · exact selected_of_le _ _ (by simpa using Nat.le_of_not_lt hf)

theorem length_orMask (m : boolList) (P : Nat → Bool) : (orMask m P).length = m.length := by
  simp [orMask]

theorem selected_orMask (m : boolList) (P : Nat → Bool) (f : Nat) (h : f < m.length) :
    selected (orMask m P) f = (selected m f || P f) := by
  rw [selected_eq_getElem _ _ (by simpa [length_orMask] using h)]
  simp [orMask]

theorem mask_ext (m m' : boolList) (hl : m'.length = m.length)
    (h : ∀ f, f < m.length → selected m' f = selected m f) : m' = m := by
  apply List.ext_getElem hl
  intro f h1 h2
  have := h f h2
  rwa [selected_eq_getElem _ _ h1, selected_eq_getElem _ _ h2] at this

theorem orMask_congr (m : boolList) (P Q : Nat → Bool)
    (h : ∀ f, f < m.length → (selected m f || P f) = (selected m f || Q f)) :
    orMask m P = orMask m Q := by
  apply mask_ext
  · simp [length_orMask]
  · intro f hf
    have hf' : f < m.length := by simpa [length_orMask] using hf
    rw [selected_orMask _ _ _ hf', selected_orMask _ _ _ hf', h f hf']

theorem orMask_self (m : boolList) (P : Nat → Bool)
    (h : ∀ f, f < m.length → P f = true → selected m f = true) : orMask m P = m := by
  apply mask_ext
  · simp [length_orMask]
  · intro f hf
    rw [selected_orMask _ _ _ hf]
    cases hs : selected m f
    · cases hp : P f
      · rfl
      · have := h f hf hp
        rw [hs] at this
        cases this
    · rfl

theorem orMask_orMask (m : boolList) (P Q : Nat → Bool) :
    orMask (orMask m P) Q = orMask m (fun f => P f || Q f) := by
  apply mask_ext
  · simp [length_orMask]
  · intro f hf
    have hf' : f < m.length := by simpa [length_orMask] using hf
    rw [selected_orMask _ _ _ hf', selected_orMask _ _ _ (by simpa [length_orMask] using hf'),
      selected_orMask _ _ _ hf', Bool.or_assoc]

theorem orMask_five (m : boolList) (P1 P2 P3 P4 P5 : Nat → Bool) :
    orMask (orMask (orMask (orMask (orMask m P1) P2) P3) P4) P5
      = orMask m (fun f => P1 f || P2 f || P3 f || P4 f || P5 f) := by
  rw [orMask_orMask, orMask_orMask, orMask_orMask, orMask_orMask]
  congr 1
  funext f
  simp only [Bool.or_assoc]

theorem selected_set_true (m : boolList) (i f : Nat) :
    selected (m.set i true) f = (selected m f || (decide (f = i) && decide (i < m.length))) := by
  by_cases hf : f < m.length
  · rw [selected_eq_getElem _ _ (by simpa using hf), selected_eq_getElem _ _ hf,
      List.getElem_set]
    by_cases hi : i = f
    · subst hi
      simp [hf]
    · have : ¬ f = i := fun h => hi h.symm
      simp [hi, this]
  · have hle : m.length ≤ f := Nat.le_of_not_lt hf
    rw [selected_of_le _ _ (by simpa using hle), selected_of_le _ _ hle]
    by_cases hi : f = i
    · subst hi
      simp [hf]
    · simp [hi]

theorem set_true_eq_orMask (m : boolList) (i : Nat) :
    m.set i true = orMask m (fun f => decide (f = i)) := by
  symm
  apply mask_ext
  · simp [length_orMask]
  · intro f hf
    have hf' : f < m.length := by simpa using hf
    rw [selected_orMask _ _ _ hf', selected_set_true]
    by_cases hi : f = i
    · subst hi
      simp [hf']
    · simp [hi]

/-! ## The loops -/

theorem toNat_eq_iff (f : Int) (hf : 0 ≤ f) (j : Nat) : j = f.toNat ↔ (j : Int) = f := by
  omega

theorem markFaces_eq_ok_iff (curFaces : labelList) (m m' : boolList) :
    markFaces curFaces m = .ok m' ↔
      (∀ f ∈ curFaces, inRange m.length f)
        ∧ m' = orMask m (fun j => curFaces.contains (j : Int)) := by
  induction curFaces generalizing m with
  | nil =>
    simp only [markFaces, Except.ok.injEq, List.not_mem_nil, false_implies, implies_true,
      true_and]
    rw [orMask_self m _ (by intro f _ h; simp at h)]
    exact eq_comm
  | cons f fs ih =>
    unfold markFaces
    by_cases hv : 0 ≤ f ∧ f < (m.length : Int)
    · rw [if_pos hv, ih, set_true_eq_orMask, orMask_orMask]
      have hmask : orMask m (fun j => decide (j = f.toNat) || fs.contains (j : Int))
          = orMask m (fun j => (f :: fs).contains (j : Int)) := by
        apply orMask_congr
        intro j _
        congr 1
        by_cases hj : (j : Int) = f
        · subst hj
          simp
        · have : ¬ j = f.toNat := fun h => hj ((toNat_eq_iff f hv.1 j).1 h)
          simp [hj, this]
      rw [hmask]
      simp only [length_orMask, List.mem_cons, forall_eq_or_imp]
      constructor
      · rintro ⟨h1, h2⟩
        exact ⟨⟨hv, h1⟩, h2⟩
      · rintro ⟨⟨_, h1⟩, h2⟩
        exact ⟨h1, h2⟩
    · rw [if_neg hv]
      constructor
      · intro h
        cases h
      · rintro ⟨h, _⟩
        exact absurd (h f (List.mem_cons_self _ _)) hv

theorem adjacent_of_inRange (table : List labelList) (i : Int) (f : Nat)
    (hi : inRange table.length i) :
    adjacent table i f = (table.getD i.toNat []).contains (f : Int) := by
  simp [adjacent, hi.1]

theorem getElem?_of_inRange (table : List labelList) (i : Int) (hi : inRange table.length i) :
    table[i.toNat]? = some (table.getD i.toNat []) := by
  have h : i.toNat < table.length := by
    have := hi.1
    have := hi.2
    omega
  simp [List.getD, List.getElem?_eq_getElem h]

theorem pointsLoop_eq_ok_iff (surf1 : triSurface) (markedPoints : labelList)
    (m m' : boolList) :
    pointsLoop surf1 markedPoints m = .ok m' ↔
      (∀ p ∈ markedPoints, inRange surf1.nPoints p
          ∧ ∀ f ∈ surf1.pointFaces.getD p.toNat [], inRange m.length f)
        ∧ m' = orMask m (fun j => markedPoints.any (fun p => adjacent surf1.pointFaces p j)) := by
  induction markedPoints generalizing m with
  | nil =>
    simp only [pointsLoop, Except.ok.injEq, List.not_mem_nil, false_implies, implies_true,
      true_and]
    rw [orMask_self m _ (by intro f _ h; simp at h)]
    exact eq_comm
  | cons p ps ih =>
    by_cases hr : p < 0 ∨ p ≥ (surf1.nPoints : Int)
    · simp only [pointsLoop, if_pos hr]
      constructor
      · intro h
        cases h
      · rintro ⟨h, _⟩
        have := (h p (List.mem_cons_self _ _)).1
        unfold inRange at this
        omega
    · have hp : inRange surf1.pointFaces.length p := by
        unfold inRange
        unfold triSurface.nPoints at hr
        omega
      simp only [pointsLoop, if_neg hr, getElem?_of_inRange _ _ hp]
      cases hm : markFaces (surf1.pointFaces.getD p.toNat []) m with
      | error e =>
        simp only
        constructor
        · intro h
          cases h
        · rintro ⟨h, _⟩
          have hv := (h p (List.mem_cons_self _ _)).2
          have := (markFaces_eq_ok_iff _ m _).2 ⟨hv, rfl⟩
          rw [hm] at this
          cases this
      | ok m1 =>
        simp only
        obtain ⟨hv, hm1⟩ := (markFaces_eq_ok_iff _ m m1).1 hm
        have hlen : m1.length = m.length := by rw [hm1, length_orMask]
        rw [ih, hm1, orMask_orMask, length_orMask]
        have hmask : orMask m (fun j => (surf1.pointFaces.getD p.toNat []).contains (j : Int)
              || ps.any (fun p => adjacent surf1.pointFaces p j))
            = orMask m (fun j => (p :: ps).any (fun p => adjacent surf1.pointFaces p j)) := by
          apply orMask_congr
          intro j _
          rw [List.any_cons, adjacent_of_inRange _ _ _ hp]
        rw [hmask]
        simp only [List.mem_cons, forall_eq_or_imp]
        constructor
        · rintro ⟨h1, h2⟩
          exact ⟨⟨⟨hp, hv⟩, h1⟩, h2⟩
        · rintro ⟨⟨_, h1⟩, h2⟩
          exact ⟨h1, h2⟩

theorem edgesLoop_eq_ok_iff (surf1 : triSurface) (markedEdges : labelList)
    (m m' : boolList) :
    edgesLoop surf1 markedEdges m = .ok m' ↔
      (∀ p ∈ markedEdges, inRange surf1.nEdges p
          ∧ ∀ f ∈ surf1.edgeFaces.getD p.toNat [], inRange m.length f)
        ∧ m' = orMask m (fun j => markedEdges.any (fun p => adjacent surf1.edgeFaces p j)) := by
  induction markedEdges generalizing m with
  | nil =>
    simp only [edgesLoop, Except.ok.injEq, List.not_mem_nil, false_implies, implies_true,
      true_and]
    rw [orMask_self m _ (by intro f _ h; simp at h)]
    exact eq_comm
  | cons p ps ih =>
    by_cases hr : p < 0 ∨ p ≥ (surf1.nEdges : Int)
    · simp only [edgesLoop, if_pos hr]
      constructor
      · intro h
        cases h
      · rintro ⟨h, _⟩
        have := (h p (List.mem_cons_self _ _)).1
        unfold inRange at this
        omega
    · have hp : inRange surf1.edgeFaces.length p := by
        unfold inRange
        unfold triSurface.nEdges at hr
        omega
      simp only [edgesLoop, if_neg hr, getElem?_of_inRange _ _ hp]
      cases hm : markFaces (surf1.edgeFaces.getD p.toNat []) m with
      | error e =>
        simp only
        constructor
        · intro h
          cases h
        · rintro ⟨h, _⟩
          have hv := (h p (List.mem_cons_self _ _)).2
          have := (markFaces_eq_ok_iff _ m _).2 ⟨hv, rfl⟩
          rw [hm] at this
          cases this
      | ok m1 =>
        simp only
        obtain ⟨hv, hm1⟩ := (markFaces_eq_ok_iff _ m m1).1 hm
        have hlen : m1.length = m.length := by rw [hm1, length_orMask]
        rw [ih, hm1, orMask_orMask, length_orMask]
        have hmask : orMask m (fun j => (surf1.edgeFaces.getD p.toNat []).contains (j : Int)
              || ps.any (fun p => adjacent surf1.edgeFaces p j))
            = orMask m (fun j => (p :: ps).any (fun p => adjacent surf1.edgeFaces p j)) := by
          apply orMask_congr
          intro j _
          rw [List.any_cons, adjacent_of_inRange _ _ _ hp]
        rw [hmask]
        simp only [List.mem_cons, forall_eq_or_imp]
        constructor
        · rintro ⟨h1, h2⟩
          exact ⟨⟨⟨hp, hv⟩, h1⟩, h2⟩
        · rintro ⟨⟨_, h1⟩, h2⟩
          exact ⟨h1, h2⟩

theorem zoneLoop_ok (surf1 : triSurface) (min max : point) (faceIs : List Nat) (m : boolList)
    (h : ∀ i ∈ faceIs, i < surf1.size ∧ i < m.length) :
    zoneLoop surf1 min max faceIs m
      = .ok (orMask m (fun j => faceIs.contains j && inZone min max (faceCentre surf1 j))) := by
  induction faceIs generalizing m with
  | nil =>
    simp only [zoneLoop]
    rw [orMask_self m _ (by intro f _ h; simp at h)]
  | cons i rest ih =>
    obtain ⟨hi, hm⟩ := h i (List.mem_cons_self _ _)
    have hrest : ∀ k ∈ rest, k < surf1.size ∧ k < m.length :=
      fun k hk => h k (List.mem_cons_of_mem _ hk)
    have hget : surf1.faces[i]? = some (surf1.faces[i]) := List.getElem?_eq_getElem hi
    have hc : faceCentre surf1 i = (surf1.faces[i]).centre surf1.points := by
      simp [faceCentre, hget]
    simp only [zoneLoop, hget]
    by_cases hz : inZone min max ((surf1.faces[i]).centre surf1.points) = true
    · rw [if_pos hz, if_pos hm, ih _ (by simpa using hrest), set_true_eq_orMask, orMask_orMask]
      congr 1
      apply orMask_congr
      intro j _
      congr 1
      by_cases hj : j = i
      · subst hj
        simp [hc, hz]
      · simp [hj]
    · rw [if_neg hz, ih _ hrest]
      congr 1
      apply orMask_congr
      intro j _
      congr 1
      by_cases hj : j = i
      · subst hj
        simp [hc, hz]
      · simp [hj]

theorem surfaceLoop_ok (getVolumeType : point → volumeType) (surf1 : triSurface)
    (outside : Bool) (faceIs : List Nat) (m : boolList)
    (h : ∀ i ∈ faceIs, i < surf1.size ∧ i < m.length) :
    surfaceLoop getVolumeType surf1 outside faceIs m
      = .ok (orMask m (fun j => faceIs.contains j
          && onRequestedSide outside (getVolumeType (faceCentre surf1 j)))) := by
  induction faceIs generalizing m with
  | nil =>
    simp only [surfaceLoop]
    rw [orMask_self m _ (by intro f _ h; simp at h)]
  | cons i rest ih =>
    obtain ⟨hi, hm⟩ := h i (List.mem_cons_self _ _)
    have hrest : ∀ k ∈ rest, k < surf1.size ∧ k < m.length :=
      fun k hk => h k (List.mem_cons_of_mem _ hk)
    have hget : surf1.faces[i]? = some (surf1.faces[i]) := List.getElem?_eq_getElem hi
    have hc : faceCentre surf1 i = (surf1.faces[i]).centre surf1.points := by
      simp [faceCentre, hget]
    have hmget : m[i]? = some (selected m i) := by
      rw [selected_eq_getElem _ _ hm]
      exact List.getElem?_eq_getElem hm
    cases hs : selected m i with
    | true =>
      rw [hs] at hmget
      simp only [surfaceLoop, hmget]
      rw [ih _ hrest]
      congr 1
      apply orMask_congr
      intro j _
      by_cases hj : j = i
      · subst hj
        simp [hs]
      · simp [hj]
    | false =>
      rw [hs] at hmget
      simp only [surfaceLoop, hmget, hget]
      by_cases hz : onRequestedSide outside
          (getVolumeType ((surf1.faces[i]).centre surf1.points)) = true
      · rw [if_pos hz, ih _ (by simpa using hrest), set_true_eq_orMask, orMask_orMask]
        congr 1
        apply orMask_congr
        intro j _
        congr 1
        by_cases hj : j = i
        · subst hj
          simp [hc, hz]
        · simp [hj]
      · rw [if_neg hz, ih _ hrest]
        congr 1
        apply orMask_congr
        intro j _
        congr 1
        by_cases hj : j = i
        · subst hj
          simp [hc, hz]
        · simp [hj]

theorem length_filter_nodup (L : List Int) (p : Int → Bool) (g : Int) (hn : L.Nodup)
    (hg : g ∈ L) (hp : p g = true) :
    (L.filter p).length = (L.filter (fun x => p x && !decide (x = g))).length + 1 := by
  induction L with
  | nil => cases hg
  | cons x xs ih =>
    obtain ⟨hx, hxs⟩ := List.nodup_cons.1 hn
    by_cases hgx : g = x
    · subst hgx
      have hq : xs.filter (fun x => p x && !decide (x = g)) = xs.filter p := by
        apply List.filter_congr
        intro y hy
        have : y ≠ g := fun h => hx (h ▸ hy)
        simp [this]
      simp [List.filter_cons, hp, hq]
    · have hmem : g ∈ xs := by
        rcases List.mem_cons.1 hg with h | h
        · exact absurd h hgx
        · exact h
      have hxg : x ≠ g := fun h => hgx h.symm
      have := ih hxs hmem
      cases hpx : p x <;> simp [List.filter_cons, hpx, hxg, this]

theorem newNeighbours_cons_selected (g : Int) (rest : labelList) (m : boolList)
    (hs : selected m g.toNat = true) :
    newNeighbours (g :: rest) m = newNeighbours rest m := by
  unfold newNeighbours
  by_cases hg : g ∈ rest
  · rw [List.dedup_cons_of_mem hg]
  · rw [List.dedup_cons_of_not_mem hg]
    simp [List.filter_cons, hs]

theorem newNeighbours_cons_unselected (g : Int) (rest : labelList) (m : boolList)
    (hs : selected m g.toNat = false) (hg0 : 0 ≤ g) (hgl : g.toNat < m.length)
    (hrest : ∀ x ∈ rest, 0 ≤ x) :
    newNeighbours (g :: rest) m = newNeighbours rest (m.set g.toNat true) + 1 := by
  unfold newNeighbours
  have hq : rest.dedup.filter (fun x => !selected (m.set g.toNat true) x.toNat)
      = rest.dedup.filter (fun x => (!selected m x.toNat) && !decide (x = g)) := by
    apply List.filter_congr
    intro x hx
    have hx0 : 0 ≤ x := hrest x (List.mem_dedup.1 hx)
    rw [selected_set_true]
    by_cases hxg : x = g
    · subst hxg
      simp [hgl]
    · have : ¬ x.toNat = g.toNat := by omega
      simp [hxg, this]
  rw [hq]
  by_cases hg : g ∈ rest
  · rw [List.dedup_cons_of_mem hg]
    exact length_filter_nodup _ _ g (List.nodup_dedup rest) (List.mem_dedup.2 hg) (by simp [hs])
  · rw [List.dedup_cons_of_not_mem hg]
    have hq2 : rest.dedup.filter (fun x => (!selected m x.toNat) && !decide (x = g))
        = rest.dedup.filter (fun x => !selected m x.toNat) := by
      apply List.filter_congr
      intro y hy
      have : y ≠ g := fun h => hg (h ▸ List.mem_dedup.1 hy)
      simp [this]
    rw [hq2]
    simp [List.filter_cons, hs]

theorem neighboursLoop_valid (curFaces : labelList) (m : boolList) (n : Nat)
    (r : boolList × Nat) (h : neighboursLoop curFaces m n = .ok r) :
    ∀ f ∈ curFaces, inRange m.length f := by
  induction curFaces generalizing m n with
  | nil =>
    intro f hf
    cases hf
  | cons g rest ih =>
    unfold neighboursLoop at h
    by_cases hv : 0 ≤ g ∧ g < (m.length : Int)
    · rw [if_pos hv] at h
      intro f hf
      rcases List.mem_cons.1 hf with hfg | hfr
      · subst hfg
        exact hv
      · by_cases hs : selected m g.toNat = true
        · rw [if_pos hs] at h
          exact ih m n h f hfr
        · rw [if_neg hs] at h
          have := ih _ _ h f hfr
          simpa using this
    · rw [if_neg hv] at h
      cases h

theorem neighboursLoop_ok (curFaces : labelList) (m : boolList) (n : Nat)
    (h : ∀ f ∈ curFaces, inRange m.length f) :
    neighboursLoop curFaces m n
      = .ok (orMask m (fun j => curFaces.contains (j : Int)), n + newNeighbours curFaces m) := by
  induction curFaces generalizing m n with
  | nil =>
    simp only [neighboursLoop]
    rw [orMask_self m _ (by intro f _ h; simp at h)]
    simp [newNeighbours]
  | cons g rest ih =>
    have hv : 0 ≤ g ∧ g < (m.length : Int) := h g (List.mem_cons_self _ _)
    have hrest : ∀ f ∈ rest, inRange m.length f := fun f hf => h f (List.mem_cons_of_mem _ hf)
    unfold neighboursLoop
    rw [if_pos hv]
    have hgl : g.toNat < m.length := by omega
    by_cases hs : selected m g.toNat = true
    · rw [if_pos hs, ih m n hrest, newNeighbours_cons_selected g rest m hs]
      congr 2
      apply orMask_congr
      intro j _
      by_cases hj : (j : Int) = g
      · subst hj
        have : selected m j = true := by simpa using hs
        simp [this]
      · simp [hj]
    · rw [if_neg hs, ih _ _ (by simpa using hrest), set_true_eq_orMask, orMask_orMask]
      have hs' : selected m g.toNat = false := by simpa using hs
      rw [newNeighbours_cons_unselected g rest m hs' hv.1 hgl (fun x hx => (hrest x hx).1),
        ← set_true_eq_orMask]
      congr 2
      · apply orMask_congr
        intro j _
        congr 1
        by_cases hj : (j : Int) = g
        · subst hj
          simp
        · have : ¬ j = g.toNat := fun h => hj ((toNat_eq_iff g hv.1 j).1 h)
          simp [hj, this]
      · omega

theorem getElem?_of_not_inRange (table : List labelList) (i : Int) (h0 : 0 ≤ i)
    (hi : ¬ inRange table.length i) : table[i.toNat]? = none := by
  apply List.getElem?_eq_none
  unfold inRange at hi
  omega

theorem facesLoop_eq_ok_iff (surf1 : triSurface) (add : Bool) (markedFaces : labelList)
    (m m' : boolList) (n : Nat) :
    (∃ n', facesLoop surf1 add markedFaces m n = .ok (m', n')) ↔
      (∀ g ∈ markedFaces, inRange surf1.size g ∧ inRange m.length g
          ∧ (add = true → inRange surf1.faceFaces.length g
              ∧ ∀ f ∈ surf1.faceFaces.getD g.toNat [], inRange m.length f))
        ∧ m' = orMask m (fun j => markedFaces.contains (j : Int)
            || (add && markedFaces.any (fun g => adjacent surf1.faceFaces g j))) := by
  induction markedFaces generalizing m n with
  | nil =>
    simp only [facesLoop, Except.ok.injEq, Prod.mk.injEq, List.not_mem_nil, false_implies,
      implies_true, true_and]
    rw [orMask_self m _ (by intro f _ h; simp at h)]
    constructor
    · rintro ⟨_, h, _⟩
      exact h.symm
    · intro h
      exact ⟨n, h.symm, rfl⟩
  | cons g gs ih =>
    by_cases hr : g < 0 ∨ g ≥ (surf1.size : Int)
    · simp only [facesLoop, if_pos hr]
      constructor
      · rintro ⟨_, h⟩
        cases h
      · rintro ⟨h, _⟩
        have := (h g (List.mem_cons_self _ _)).1
        unfold inRange at this
        omega
    · have hgs : inRange surf1.size g := by
        unfold inRange
        omega
      by_cases hl : ¬ g < (m.length : Int)
      · simp only [facesLoop, if_neg hr, if_pos hl]
        constructor
        · rintro ⟨_, h⟩
          cases h
        · rintro ⟨h, _⟩
          exact absurd (h g (List.mem_cons_self _ _)).2.1.2 hl
      · have hgm : inRange m.length g := ⟨hgs.1, not_not.1 hl⟩
        cases add with
        | false =>
          simp only [facesLoop, if_neg hr, if_neg hl, Bool.false_eq_true, if_false]
          rw [ih, set_true_eq_orMask, orMask_orMask, length_orMask]
          have hmask : orMask m (fun j => decide (j = g.toNat) || (gs.contains (j : Int)
                || (false && gs.any (fun g => adjacent surf1.faceFaces g j))))
              = orMask m (fun j => (g :: gs).contains (j : Int)
                || (false && (g :: gs).any (fun g => adjacent surf1.faceFaces g j))) := by
            apply orMask_congr
            intro j _
            congr 1
            by_cases hj : (j : Int) = g
            · subst hj
              simp
            · have : ¬ j = g.toNat := fun h => hj ((toNat_eq_iff g hgs.1 j).1 h)
              simp [hj, this]
          rw [hmask]
          simp only [List.mem_cons, forall_eq_or_imp, Bool.false_eq_true, false_implies,
            and_true]
          constructor
          · rintro ⟨h1, h2⟩
            exact ⟨⟨⟨hgs, hgm⟩, h1⟩, h2⟩
          · rintro ⟨⟨_, h1⟩, h2⟩
            exact ⟨h1, h2⟩
        | true =>
          by_cases hg : inRange surf1.faceFaces.length g
          · simp only [facesLoop, if_neg hr, if_neg hl, if_true, getElem?_of_inRange _ _ hg]
            cases hn : neighboursLoop (surf1.faceFaces.getD g.toNat [])
                (m.set g.toNat true) n with
            | error e =>
              simp only
              constructor
              · rintro ⟨_, h⟩
                cases h
              · rintro ⟨h, _⟩
                have hv := ((h g (List.mem_cons_self _ _)).2.2 trivial).2
                have := neighboursLoop_ok _ (m.set g.toNat true) n
                  (by intro f hf; have := hv f hf; rwa [List.length_set])
                rw [hn] at this
                cases this
            | ok r =>
              obtain ⟨m2, n2⟩ := r
              simp only
              have hv := neighboursLoop_valid _ _ _ _ hn
              have hv' : ∀ f ∈ surf1.faceFaces.getD g.toNat [], inRange m.length f := by
                intro f hf
                have := hv f hf
                rwa [List.length_set] at this
              have hm2 := neighboursLoop_ok _ (m.set g.toNat true) n hv
              rw [hn] at hm2
              have hm2' : m2 = orMask (m.set g.toNat true)
                  (fun j => (surf1.faceFaces.getD g.toNat []).contains (j : Int)) :=
                congrArg Prod.fst (Except.ok.inj hm2)
              rw [ih, hm2', set_true_eq_orMask, orMask_orMask, orMask_orMask, length_orMask]
              have hmask : orMask m (fun j => (decide (j = g.toNat)
                    || (surf1.faceFaces.getD g.toNat []).contains (j : Int))
                    || (gs.contains (j : Int)
                      || (true && gs.any (fun g => adjacent surf1.faceFaces g j))))
                  = orMask m (fun j => (g :: gs).contains (j : Int)
                    || (true && (g :: gs).any (fun g => adjacent surf1.faceFaces g j))) := by
                apply orMask_congr
                intro j _
                congr 1
                rw [List.any_cons, adjacent_of_inRange _ _ _ hg]
                by_cases hj : (j : Int) = g
                · subst hj
                  simp
                · have : ¬ j = g.toNat := fun h => hj ((toNat_eq_iff g hgs.1 j).1 h)
                  simp only [List.contains_cons, this, decide_False, Bool.false_or,
                    Bool.true_and]
                  have hbeq : ((j : Int) == g) = false := by simpa using hj
                  rw [hbeq, Bool.false_or]
                  cases (surf1.faceFaces.getD g.toNat []).contains (j : Int) <;>
                    cases gs.contains (j : Int) <;> simp
              rw [hmask]
              simp only [List.mem_cons, forall_eq_or_imp, forall_const]
              constructor
              · rintro ⟨h1, h2⟩
                exact ⟨⟨⟨hgs, hgm, hg, hv'⟩, h1⟩, h2⟩
              · rintro ⟨⟨_, h1⟩, h2⟩
                exact ⟨h1, h2⟩
          · simp only [facesLoop, if_neg hr, if_neg hl, if_true,
              getElem?_of_not_inRange _ _ hgs.1 hg]
            constructor
            · rintro ⟨_, h⟩
              cases h
            · rintro ⟨h, _⟩
              exact absurd ((h g (List.mem_cons_self _ _)).2.2 trivial).1 hg

/-! ## The criteria as joins of face sets -/

theorem pickPoints_eq (surf1 : triSurface) (markedPoints : labelList) (m : boolList) :
    pickPoints surf1 markedPoints m = pointsLoop surf1 markedPoints m := by
  cases markedPoints <;> simp [pickPoints, pointsLoop]

theorem pickEdges_eq (surf1 : triSurface) (markedEdges : labelList) (m : boolList) :
    pickEdges surf1 markedEdges m = edgesLoop surf1 markedEdges m := by
  cases markedEdges <;> simp [pickEdges, edgesLoop]

theorem pickFaces_eq (surf1 : triSurface) (markedFaces : labelList) (add : Bool)
    (m : boolList) :
    pickFaces surf1 markedFaces add m = facesLoop surf1 add markedFaces m 0 := by
  cases markedFaces <;> simp [pickFaces, facesLoop]

theorem any_adjacent_iff (table : List labelList) (l : labelList) (f : Nat) :
    l.any (fun p => adjacent table p f) = true ↔
      ∃ p ∈ l, 0 ≤ p ∧ ∃ curFaces, table[p.toNat]? = some curFaces ∧ (f : Int) ∈ curFaces := by
  simp only [List.any_eq_true, adjacent, Bool.and_eq_true, decide_eq_true_eq,
    List.contains_eq_any_beq, List.any_eq_true, beq_iff_eq]
  constructor
  · rintro ⟨p, hp, h0, hmem⟩
    refine ⟨p, hp, h0, ?_⟩
    cases hget : table[p.toNat]? with
    | none =>
      simp [List.getD, hget] at hmem
    | some cf =>
      refine ⟨cf, rfl, ?_⟩
      simpa [List.getD, hget] using hmem
  · rintro ⟨p, hp, h0, cf, hget, hmem⟩
    refine ⟨p, hp, h0, ?_⟩
    simpa [List.getD, hget] using hmem

theorem mem_getD_table (table : List labelList) (i : Nat) (f : Int)
    (h : f ∈ table.getD i []) : ∃ curFaces ∈ table, f ∈ curFaces := by
  cases hget : table[i]? with
  | none =>
    simp [List.getD, hget] at h
  | some cf =>
    refine ⟨cf, List.getElem?_mem hget, ?_⟩
    simpa [List.getD, hget] using h

theorem adjacent_lt (table : List labelList) (n : Nat)
    (hadj : ∀ curFaces ∈ table, ∀ f ∈ curFaces, inRange n f) (l : labelList) (f : Nat)
    (h : l.any (fun p => adjacent table p f) = true) : f < n := by
  obtain ⟨p, _, _, cf, hget, hmem⟩ := (any_adjacent_iff table l f).1 h
  have := (hadj cf (List.getElem?_mem hget) _ hmem).2
  omega

theorem selected_orMask_iff (m : boolList) (P : Nat → Bool) (f : Nat) :
    selected (orMask m P) f = true ↔ selected m f = true ∨ (f < m.length ∧ P f = true) := by
  by_cases hf : f < m.length
  · rw [selected_orMask _ _ _ hf]
    simp [hf]
  · have hle : m.length ≤ f := Nat.le_of_not_lt hf
    rw [selected_of_le _ _ (by simpa [length_orMask] using hle), selected_of_le _ _ hle]
    simp [hf]

theorem table_valid_getD (table : List labelList) (n : Nat)
    (hadj : ∀ curFaces ∈ table, ∀ f ∈ curFaces, inRange n f) (i : Nat) :
    ∀ f ∈ table.getD i [], inRange n f := by
  intro f hf
  obtain ⟨cf, hcf, hmem⟩ := mem_getD_table table i f hf
  exact hadj cf hcf f hmem

theorem pickPoints_ok (surf1 : triSurface) (markedPoints : labelList) (m : boolList)
    (hadj : ∀ curFaces ∈ surf1.pointFaces, ∀ f ∈ curFaces, inRange m.length f)
    (hp : ∀ p ∈ markedPoints, inRange surf1.nPoints p) :
    pickPoints surf1 markedPoints m
      = .ok (orMask m (fun j => markedPoints.any (fun p => adjacent surf1.pointFaces p j))) := by
  rw [pickPoints_eq, pointsLoop_eq_ok_iff]
  exact ⟨fun p hpm => ⟨hp p hpm, table_valid_getD _ _ hadj _⟩, rfl⟩

theorem pickEdges_ok (surf1 : triSurface) (markedEdges : labelList) (m : boolList)
    (hadj : ∀ curFaces ∈ surf1.edgeFaces, ∀ f ∈ curFaces, inRange m.length f)
    (hp : ∀ p ∈ markedEdges, inRange surf1.nEdges p) :
    pickEdges surf1 markedEdges m
      = .ok (orMask m (fun j => markedEdges.any (fun p => adjacent surf1.edgeFaces p j))) := by
  rw [pickEdges_eq, edgesLoop_eq_ok_iff]
  exact ⟨fun p hpm => ⟨hp p hpm, table_valid_getD _ _ hadj _⟩, rfl⟩

theorem edgesLoop_error (surf1 : triSurface) (markedEdges : labelList) (m : boolList)
    (hadj : ∀ curFaces ∈ surf1.edgeFaces, ∀ f ∈ curFaces, inRange m.length f)
    (hbad : ∃ e ∈ markedEdges, e < 0 ∨ e ≥ (surf1.nEdges : Int)) :
    ∃ v m', v ∈ markedEdges ∧ (v < 0 ∨ v ≥ (surf1.nEdges : Int))
      ∧ edgesLoop surf1 markedEdges m = .error ⟨.edgeOutOfRange v surf1.nEdges, m'⟩ := by
  induction markedEdges generalizing m with
  | nil =>
    obtain ⟨e, he, _⟩ := hbad
    cases he
  | cons e es ih =>
    by_cases hr : e < 0 ∨ e ≥ (surf1.nEdges : Int)
    · exact ⟨e, m, List.mem_cons_self _ _, hr, by simp only [edgesLoop, if_pos hr]⟩
    · have hp : inRange surf1.edgeFaces.length e := by
        unfold inRange
        unfold triSurface.nEdges at hr
        omega
      have hm1 := (markFaces_eq_ok_iff (surf1.edgeFaces.getD e.toNat []) m _).2
        ⟨table_valid_getD _ _ hadj _, rfl⟩
      have hbad' : ∃ x ∈ es, x < 0 ∨ x ≥ (surf1.nEdges : Int) := by
        obtain ⟨x, hx, hxb⟩ := hbad
        rcases List.mem_cons.1 hx with h | h
        · subst h
          exact absurd hxb hr
        · exact ⟨x, h, hxb⟩
      obtain ⟨v, m', hv, hvb, hres⟩ := ih (orMask m _) (by simpa [length_orMask] using hadj) hbad'
      refine ⟨v, m', List.mem_cons_of_mem _ hv, hvb, ?_⟩
      simp only [edgesLoop, if_neg hr, getElem?_of_inRange _ _ hp, hm1]
      exact hres

theorem inZone_iff (min max c : point) : inZone min max c = true ↔ inBox min max c := by
  unfold inZone inBox
  simp only [Bool.and_eq_true, decide_eq_true_eq, ge_iff_le]
  tauto

theorem faceCentre_of_getElem? (surf1 : triSurface) (f : Nat) (tri : triFace)
    (h : surf1.faces[f]? = some tri) : faceCentre surf1 f = tri.centre surf1.points := by
  simp [faceCentre, h]

theorem lt_size_of_getElem? (surf1 : triSurface) (f : Nat) (tri : triFace)
    (h : surf1.faces[f]? = some tri) : f < surf1.size := by
  obtain ⟨hlt, _⟩ := List.getElem?_eq_some.1 h
  exact hlt

theorem pickZone_ok (surf1 : triSurface) (markedZone : pointField) (m : boolList)
    (hm : m.length = surf1.size) :
    pickZone surf1 markedZone m = .ok (orMask m (zoneFaces surf1 markedZone)) := by
  match markedZone with
  | [] =>
    rw [orMask_self m _ (by intro f _ h; simp [zoneFaces] at h)]
    rfl
  | [_] =>
    rw [orMask_self m _ (by intro f _ h; simp [zoneFaces] at h)]
    rfl
  | [min, max] =>
    simp only [pickZone]
    rw [zoneLoop_ok _ _ _ _ _ (by
      intro i hi
      have := List.mem_range.1 hi
      omega)]
    congr 1
    apply orMask_congr
    intro j hj
    congr 1
    have hmem : (List.range surf1.size).contains j = true := by
      simp only [List.contains_eq_any_beq, List.any_eq_true, beq_iff_eq]
      exact ⟨j, List.mem_range.2 (hm ▸ hj), rfl⟩
    rw [hmem, Bool.true_and]
    by_cases hb : inBox min max (faceCentre surf1 j)
    · rw [(inZone_iff _ _ _).2 hb]
      simp [zoneFaces, hb]
    · have : inZone min max (faceCentre surf1 j) = false := by
        cases hz : inZone min max (faceCentre surf1 j)
        · rfl
        · exact absurd ((inZone_iff _ _ _).1 hz) hb
      rw [this]
      simp [zoneFaces, hb]
  | _ :: _ :: _ :: _ =>
    rw [orMask_self m _ (by intro f _ h; simp [zoneFaces] at h)]
    rfl

theorem onRequestedSide_iff (outside : Bool) (t : volumeType) :
    onRequestedSide outside t = true ↔
      t = (if outside then volumeType.OUTSIDE else volumeType.INSIDE) := by
  cases outside <;> simp [onRequestedSide]

theorem pickSurface_ok (getVolumeType : point → volumeType) (surf1 : triSurface)
    (surface : Option surfaceDict) (m : boolList) (hm : m.length = surf1.size) :
    pickSurface getVolumeType surf1 surface m
      = .ok (orMask m (surfaceFaces getVolumeType surf1 surface)) := by
  match surface with
  | none =>
    rw [orMask_self m _ (by intro f _ h; simp [surfaceFaces] at h)]
    rfl
  | some surfDict =>
    simp only [pickSurface]
    rw [surfaceLoop_ok _ _ _ _ _ (by
      intro i hi
      have := List.mem_range.1 hi
      omega)]
    congr 1
    apply orMask_congr
    intro j hj
    congr 1
    have hmem : (List.range m.length).contains j = true := by
      simp only [List.contains_eq_any_beq, List.any_eq_true, beq_iff_eq]
      exact ⟨j, List.mem_range.2 hj, rfl⟩
    rw [hmem, Bool.true_and]
    by_cases hb : getVolumeType (faceCentre surf1 j)
        = (if surfDict.outside then volumeType.OUTSIDE else volumeType.INSIDE)
    · rw [(onRequestedSide_iff _ _).2 hb]
      simp [surfaceFaces, hb]
    · have : onRequestedSide surfDict.outside (getVolumeType (faceCentre surf1 j)) = false := by
        cases hz : onRequestedSide surfDict.outside (getVolumeType (faceCentre surf1 j))
        · rfl
        · exact absurd ((onRequestedSide_iff _ _).1 hz) hb
      rw [this]
      simp [surfaceFaces, hb]

theorem pickFaces_ok (surf1 : triSurface) (markedFaces : labelList) (add : Bool)
    (m : boolList) (hm : m.length = surf1.size)
    (hl : ∀ g ∈ markedFaces, inRange surf1.size g)
    (hadj : add = true →
      validFaceLabels surf1 surf1.faceFaces ∧ surf1.faceFaces.length = surf1.size) :
    ∃ n, pickFaces surf1 markedFaces add m
      = .ok (orMask m (listedFaces surf1 markedFaces add), n) := by
  rw [pickFaces_eq]
  apply (facesLoop_eq_ok_iff surf1 add markedFaces m _ 0).2
  refine ⟨?_, rfl⟩
  intro g hg
  refine ⟨hl g hg, hm ▸ hl g hg, ?_⟩
  intro hadd
  obtain ⟨hv, hlen⟩ := hadj hadd
  refine ⟨hlen ▸ hl g hg, ?_⟩
  rw [hm]
  exact table_valid_getD _ _ hv _

theorem listedFaces_congr (surf1 : triSurface) (l l2 : labelList) (add : Bool)
    (h : ∀ g, g ∈ l2 ↔ g ∈ l) : listedFaces surf1 l2 add = listedFaces surf1 l add := by
  funext f
  unfold listedFaces
  have h1 : l2.contains (f : Int) = l.contains (f : Int) := by
    rw [Bool.eq_iff_iff]
    simp only [List.contains_eq_any_beq, List.any_eq_true, beq_iff_eq]
    constructor
    · rintro ⟨x, hx, hfx⟩
      exact ⟨x, (h x).1 hx, hfx⟩
    · rintro ⟨x, hx, hfx⟩
      exact ⟨x, (h x).2 hx, hfx⟩
  have h2 : l2.any (fun g => adjacent surf1.faceFaces g f)
      = l.any (fun g => adjacent surf1.faceFaces g f) := by
    rw [Bool.eq_iff_iff]
    simp only [List.any_eq_true]
    constructor
    · rintro ⟨x, hx, hfx⟩
      exact ⟨x, (h x).1 hx, hfx⟩
    · rintro ⟨x, hx, hfx⟩
      exact ⟨x, (h x).2 hx, hfx⟩
  rw [h1, h2]

theorem listedFaces_iff (surf1 : triSurface) (l : labelList) (add : Bool) (f : Nat) :
    listedFaces surf1 l add f = true ↔
      (f : Int) ∈ l ∨ (add = true ∧ ∃ g ∈ l, 0 ≤ g ∧ ∃ curFaces,
        surf1.faceFaces[g.toNat]? = some curFaces ∧ (f : Int) ∈ curFaces) := by
  unfold listedFaces
  rw [Bool.or_eq_true, Bool.and_eq_true, any_adjacent_iff]
  simp only [List.contains_eq_any_beq, List.any_eq_true, beq_iff_eq]
  constructor
  · rintro (⟨x, hx, hfx⟩ | h)
    · exact Or.inl (hfx ▸ hx)
    · exact Or.inr h
  · rintro (h | h)
    · exact Or.inl ⟨_, h, rfl⟩
    · exact Or.inr h

theorem listedFaces_lt (surf1 : triSurface) (l : labelList) (add : Bool) (f : Nat)
    (hl : ∀ g ∈ l, inRange surf1.size g)
    (hadj : add = true → validFaceLabels surf1 surf1.faceFaces)
    (h : listedFaces surf1 l add f = true) : f < surf1.size := by
  rcases (listedFaces_iff surf1 l add f).1 h with h1 | ⟨hadd, g, _, _, cf, hget, hmem⟩
  · have := (hl _ h1).2
    omega
  · have := (hadj hadd cf (List.getElem?_mem hget) _ hmem).2
    omega

/-! ## No criterion raises the zone error -/

theorem markFaces_error_kind (curFaces : labelList) (m : boolList) (e : Abort)
    (h : markFaces curFaces m = .error e) : e.error.isZoneSpec = false := by
  induction curFaces generalizing m with
  | nil => cases h
  | cons f fs ih =>
    simp only [markFaces] at h
    split at h
    · exact ih _ h
    · cases h
      rfl

theorem pointsLoop_error_kind (surf1 : triSurface) (markedPoints : labelList) (m : boolList)
    (e : Abort) (h : pointsLoop surf1 markedPoints m = .error e) :
    e.error.isZoneSpec = false := by
  induction markedPoints generalizing m with
  | nil => cases h
  | cons p ps ih =>
    simp only [pointsLoop] at h
    split at h
    · cases h
      rfl
    · split at h
      · cases h
        rfl
      · split at h
        · rename_i hm
          cases h
          exact markFaces_error_kind _ _ _ hm
        · exact ih _ h

theorem edgesLoop_error_kind (surf1 : triSurface) (markedEdges : labelList) (m : boolList)
    (e : Abort) (h : edgesLoop surf1 markedEdges m = .error e) :
    e.error.isZoneSpec = false := by
  induction markedEdges generalizing m with
  | nil => cases h
  | cons p ps ih =>
    simp only [edgesLoop] at h
    split at h
    · cases h
      rfl
    · split at h
      · cases h
        rfl
      · split at h
        · rename_i hm
          cases h
          exact markFaces_error_kind _ _ _ hm
        · exact ih _ h

theorem neighboursLoop_error_kind (curFaces : labelList) (m : boolList) (n : Nat) (e : Abort)
    (h : neighboursLoop curFaces m n = .error e) : e.error.isZoneSpec = false := by
  induction curFaces generalizing m n with
  | nil => cases h
  | cons f fs ih =>
    simp only [neighboursLoop] at h
    split at h
    · split at h
      · exact ih _ _ h
      · exact ih _ _ h
    · cases h
      rfl

theorem facesLoop_error_kind (surf1 : triSurface) (add : Bool) (markedFaces : labelList)
    (m : boolList) (n : Nat) (e : Abort)
    (h : facesLoop surf1 add markedFaces m n = .error e) : e.error.isZoneSpec = false := by
  induction markedFaces generalizing m n with
  | nil => cases h
  | cons g gs ih =>
    simp only [facesLoop] at h
    split at h
    · cases h
      rfl
    · split at h
      · cases h
        rfl
      · split at h
        · split at h
          · cases h
            rfl
          · split at h
            · rename_i hn
              cases h
              exact neighboursLoop_error_kind _ _ _ _ hn
            · exact ih _ _ h
        · exact ih _ _ h

theorem selectFaces_error_kind (getVolumeType : point → volumeType) (surf1 : triSurface)
    (dict : surfaceSubsetDict) (e : Abort)
    (h : selectFaces getVolumeType surf1 dict = .error e) : e.error.isZoneSpec = false := by
  simp only [selectFaces] at h
  split at h
  · rename_i h1
    cases h
    rw [pickPoints_eq] at h1
    exact pointsLoop_error_kind _ _ _ _ h1
  · rename_i m1 h1
    have hl1 : m1.length = surf1.size := by
      rw [pickPoints_eq] at h1
      rw [((pointsLoop_eq_ok_iff _ _ _ _).1 h1).2, length_orMask, List.length_replicate]
    split at h
    · rename_i h2
      cases h
      rw [pickEdges_eq] at h2
      exact edgesLoop_error_kind _ _ _ _ h2
    · rename_i m2 h2
      have hl2 : m2.length = surf1.size := by
        rw [pickEdges_eq] at h2
        rw [((edgesLoop_eq_ok_iff _ _ _ _).1 h2).2, length_orMask, hl1]
      rw [pickZone_ok _ _ _ hl2] at h
      simp only at h
      rw [pickSurface_ok _ _ _ _ (by rw [length_orMask, hl2])] at h
      simp only at h
      split at h
      · rename_i h5
        cases h
        rw [pickFaces_eq] at h5
        exact facesLoop_error_kind _ _ _ _ _ _ h5
      · cases h

/-! ## The whole selection -/

theorem selectFaces_of_ok (getVolumeType : point → volumeType) (surf1 : triSurface)
    (dict : surfaceSubsetDict) (sel : selection)
    (h : selectFaces getVolumeType surf1 dict = .ok sel) :
    (∀ p ∈ dict.localPoints, inRange surf1.nPoints p)
      ∧ (∀ e ∈ dict.edges, inRange surf1.nEdges e)
      ∧ (∀ g ∈ dict.faces, inRange surf1.size g)
      ∧ sel.facesToSubset = invert dict.invertSelection
          (orMask (List.replicate surf1.size false) (pickedFaces getVolumeType surf1 dict)) := by
  simp only [selectFaces] at h
  split at h
  · cases h
  · rename_i m1 h1
    rw [pickPoints_eq] at h1
    obtain ⟨hv1, hm1⟩ := (pointsLoop_eq_ok_iff _ _ _ _).1 h1
    have hl1 : m1.length = surf1.size := by
      rw [hm1, length_orMask, List.length_replicate]
    split at h
    · cases h
    · rename_i m2 h2
      rw [pickEdges_eq] at h2
      obtain ⟨hv2, hm2⟩ := (edgesLoop_eq_ok_iff _ _ _ _).1 h2
      have hl2 : m2.length = surf1.size := by
        rw [hm2, length_orMask, hl1]
      rw [pickZone_ok _ _ _ hl2] at h
      simp only at h
      rw [pickSurface_ok _ _ _ _ (by rw [length_orMask, hl2])] at h
      simp only at h
      split at h
      · cases h
      · rename_i m5 n5 h5
        rw [pickFaces_eq] at h5
        obtain ⟨hv5, hm5⟩ := (facesLoop_eq_ok_iff _ _ _ _ _ _).1 ⟨n5, h5⟩
        refine ⟨fun p hp => (hv1 p hp).1, fun e he => (hv2 e he).1,
          fun g hg => (hv5 g hg).1, ?_⟩
        cases h
        simp only
        rw [hm5, hm2, hm1, orMask_five]
        rfl

theorem selectFaces_ok (getVolumeType : point → volumeType) (surf1 : triSurface)
    (dict : surfaceSubsetDict) (hwf : surf1.wellFormed)
    (hp : ∀ p ∈ dict.localPoints, inRange surf1.nPoints p)
    (he : ∀ e ∈ dict.edges, inRange surf1.nEdges e)
    (hf : ∀ g ∈ dict.faces, inRange surf1.size g) :
    ∃ n, selectFaces getVolumeType surf1 dict
      = .ok ⟨invert dict.invertSelection
          (orMask (List.replicate surf1.size false) (pickedFaces getVolumeType surf1 dict)), n⟩ := by
  obtain ⟨hpf, hef, hff, hlen⟩ := hwf
  have hl0 : (List.replicate surf1.size false).length = surf1.size := List.length_replicate _ _
  have h1 := pickPoints_ok surf1 dict.localPoints (List.replicate surf1.size false)
    (by rw [hl0]; exact hpf) hp
  have h2 := pickEdges_ok surf1 dict.edges
    (orMask (List.replicate surf1.size false)
      (fun j => dict.localPoints.any (fun p => adjacent surf1.pointFaces p j)))
    (by rw [length_orMask, hl0]; exact hef) he
  obtain ⟨n, h5⟩ := pickFaces_ok surf1 dict.faces dict.addFaceNeighbours
    (orMask (orMask (orMask (orMask (List.replicate surf1.size false)
      (fun j => dict.localPoints.any (fun p => adjacent surf1.pointFaces p j)))
      (fun j => dict.edges.any (fun p => adjacent surf1.edgeFaces p j)))
      (zoneFaces surf1 dict.zone)) (surfaceFaces getVolumeType surf1 dict.surface))
    (by simp only [length_orMask, hl0]) hf (fun _ => ⟨hff, hlen⟩)
  refine ⟨n, ?_⟩
  simp only [selectFaces, h1, h2]
  rw [pickZone_ok _ _ _ (by simp only [length_orMask, hl0])]
  simp only
  rw [pickSurface_ok _ _ _ _ (by simp only [length_orMask, hl0])]
  simp only [h5]
  rw [orMask_five]
  rfl

theorem invert_orMask_replicate (inv : Bool) (n : Nat) (P : Nat → Bool) :
    invert inv (orMask (List.replicate n false) P)
      = (List.range n).map (fun f => xor inv (P f)) := by
  have h : orMask (List.replicate n false) P = (List.range n).map P := by
    unfold orMask
    rw [List.length_replicate]
    apply List.map_congr_left
    intro f _
    rw [selected_replicate_false, Bool.false_or]
  rw [h]
  cases inv
  · simp [invert]
  · simp only [invert, if_true, List.map_map]
    apply List.map_congr_left
    intro f _
    simp only [Function.comp]
    cases P f <;> simp

theorem inRange_of_not_outOfRange (n : Nat) (labels : labelList) (h : ¬ outOfRange n labels) :
    ∀ i ∈ labels, inRange n i := by
  intro i hi
  unfold inRange
  by_contra hc
  apply h
  refine ⟨i, hi, ?_⟩
  omega

theorem not_outOfRange_of_inRange (n : Nat) (labels : labelList)
    (h : ∀ i ∈ labels, inRange n i) : ¬ outOfRange n labels := by
  rintro ⟨i, hi, hb⟩
  have := h i hi
  unfold inRange at this
  omega

theorem applyCriterion_ok (getVolumeType : point → volumeType) (surf1 : triSurface)
    (dict : surfaceSubsetDict) (hwf : surf1.wellFormed)
    (hp : ∀ p ∈ dict.localPoints, inRange surf1.nPoints p)
    (he : ∀ e ∈ dict.edges, inRange surf1.nEdges e)
    (hf : ∀ g ∈ dict.faces, inRange surf1.size g)
    (c : criterion) (m : boolList) (hm : m.length = surf1.size) :
    applyCriterion getVolumeType surf1 dict c m
      = .ok (orMask m (criterionFaces getVolumeType surf1 dict c)) := by
  obtain ⟨hpf, hef, hff, hlen⟩ := hwf
  cases c with
  | localPoints =>
    exact pickPoints_ok surf1 dict.localPoints m (by rw [hm]; exact hpf) hp
  | edges =>
    exact pickEdges_ok surf1 dict.edges m (by rw [hm]; exact hef) he
  | zone =>
    exact pickZone_ok surf1 dict.zone m hm
  | surface =>
    exact pickSurface_ok getVolumeType surf1 dict.surface m hm
  | faces =>
    obtain ⟨n, hn⟩ := pickFaces_ok surf1 dict.faces dict.addFaceNeighbours m hm hf
      (fun _ => ⟨hff, hlen⟩)
    simp only [applyCriterion, hn]
    rfl

theorem applyCriteria_ok (getVolumeType : point → volumeType) (surf1 : triSurface)
    (dict : surfaceSubsetDict) (hwf : surf1.wellFormed)
    (hp : ∀ p ∈ dict.localPoints, inRange surf1.nPoints p)
    (he : ∀ e ∈ dict.edges, inRange surf1.nEdges e)
    (hf : ∀ g ∈ dict.faces, inRange surf1.size g)
    (order : List criterion) (m : boolList) (hm : m.length = surf1.size) :
    applyCriteria getVolumeType surf1 dict order m
      = .ok (orMask m
          (fun f => order.any (fun c => criterionFaces getVolumeType surf1 dict c f))) := by
  induction order generalizing m with
  | nil =>
    simp only [applyCriteria]
    rw [orMask_self m _ (by intro f _ h; simp at h)]
  | cons c cs ih =>
    simp only [applyCriteria, applyCriterion_ok getVolumeType surf1 dict hwf hp he hf c m hm]
    rw [ih _ (by rw [length_orMask, hm]), orMask_orMask]
    congr 1

theorem any_perm (order order2 : List criterion) (g : criterion → Bool)
    (h : order.Perm order2) : order.any g = order2.any g := by
  rw [Bool.eq_iff_iff, List.any_eq_true, List.any_eq_true]
  constructor
  · rintro ⟨x, hx, hg⟩
    exact ⟨x, h.mem_iff.1 hx, hg⟩
  · rintro ⟨x, hx, hg⟩
    exact ⟨x, h.mem_iff.2 hx, hg⟩

theorem sourceOrder_any (getVolumeType : point → volumeType) (surf1 : triSurface)
    (dict : surfaceSubsetDict) (f : Nat) :
    sourceOrder.any (fun c => criterionFaces getVolumeType surf1 dict c f)
      = pickedFaces getVolumeType surf1 dict f := by
  simp only [sourceOrder, List.any_cons, List.any_nil, criterionFaces, pickedFaces,
    Bool.or_false, Bool.or_assoc]

theorem main_of_selectFaces (getVolumeType : point → volumeType) (surf1 : triSurface)
    (dict : surfaceSubsetDict) (hz : ¬ (dict.zone.length ≠ 0 ∧ dict.zone.length ≠ 2))
    (sel : selection) (h : selectFaces getVolumeType surf1 dict = .ok sel) :
    main getVolumeType surf1 dict
      = .ok ⟨sel.facesToSubset, sel.nFaceNeighbours, subsetMesh surf1 sel.facesToSubset⟩ := by
  simp only [main, if_neg hz, h]

theorem selectFaces_of_main (getVolumeType : point → volumeType) (surf1 : triSurface)
    (dict : surfaceSubsetDict) (out : output)
    (h : main getVolumeType surf1 dict = .ok out) :
    ¬ (dict.zone.length ≠ 0 ∧ dict.zone.length ≠ 2)
      ∧ ∃ sel, selectFaces getVolumeType surf1 dict = .ok sel
        ∧ out.facesToSubset = sel.facesToSubset := by
  by_cases hz : dict.zone.length ≠ 0 ∧ dict.zone.length ≠ 2
  · simp only [main, if_pos hz] at h
    cases h
  · refine ⟨hz, ?_⟩
    simp only [main, if_neg hz] at h
    split at h
    · cases h
    · rename_i sel hsel
      cases h
      exact ⟨sel, hsel, rfl⟩

theorem orMask_idem (m : boolList) (P : Nat → Bool) : orMask (orMask m P) P = orMask m P := by
  apply orMask_self
  intro f hf hP
  rw [length_orMask] at hf
  rw [selected_orMask _ _ _ hf, hP, Bool.or_true]

/-! ## A list in two parts -/

theorem pointsLoop_append (surf1 : triSurface) (pre rest : labelList) (m : boolList) :
    pointsLoop surf1 (pre ++ rest) m
      = match pointsLoop surf1 pre m with
        | .error e => .error e
        | .ok m1 => pointsLoop surf1 rest m1 := by
  induction pre generalizing m with
  | nil => rfl
  | cons p ps ih =>
    simp only [List.cons_append, pointsLoop]
    split
    · rfl
    · split
      · rfl
      · split
        · rfl
        · exact ih _

theorem edgesLoop_append (surf1 : triSurface) (pre rest : labelList) (m : boolList) :
    edgesLoop surf1 (pre ++ rest) m
      = match edgesLoop surf1 pre m with
        | .error e => .error e
        | .ok m1 => edgesLoop surf1 rest m1 := by
  induction pre generalizing m with
  | nil => rfl
  | cons p ps ih =>
    simp only [List.cons_append, edgesLoop]
    split
    · rfl
    · split
      · rfl
      · split
        · rfl
        · exact ih _

theorem facesLoop_append (surf1 : triSurface) (add : Bool) (pre rest : labelList)
    (m : boolList) (n : Nat) :
    facesLoop surf1 add (pre ++ rest) m n
      = match facesLoop surf1 add pre m n with
        | .error e => .error e
        | .ok (m1, n1) => facesLoop surf1 add rest m1 n1 := by
  induction pre generalizing m n with
  | nil => rfl
  | cons g gs ih =>
    simp only [List.cons_append, facesLoop]
    split
    · rfl
    · split
      · rfl
      · split
        · split
          · rfl
          · split
            · rfl
            · exact ih _ _
        · exact ih _ _

/-! ## The compaction -/

theorem subsetMesh_faceMap (surf1 : triSurface) (mask : boolList) :
    (subsetMesh surf1 mask).faceMap
      = ((List.range surf1.size).filter (fun f => selected mask f)).map
          (fun f : Nat => (f : Int)) :=
  rfl

theorem subsetMesh_pointMap (surf1 : triSurface) (mask : boolList) :
    (subsetMesh surf1 mask).pointMap
      = ((((List.range surf1.size).filter (fun f => selected mask f)).filterMap
            (fun f => surf1.faces[f]?)).map triFace.labels).flatten.dedup.insertionSort
          (fun p q => p ≤ q) :=
  rfl

theorem mem_retained (surf1 : triSurface) (mask : boolList) (tri : triFace) :
    tri ∈ ((List.range surf1.size).filter (fun f => selected mask f)).filterMap
        (fun f => surf1.faces[f]?)
      ↔ ∃ f : Nat, selected mask f = true ∧ surf1.faces[f]? = some tri := by
  simp only [List.mem_filterMap, List.mem_filter, List.mem_range]
  constructor
  · rintro ⟨f, ⟨_, hs⟩, hget⟩
    exact ⟨f, hs, hget⟩
  · rintro ⟨f, hs, hget⟩
    exact ⟨f, ⟨lt_size_of_getElem? surf1 f tri hget, hs⟩, hget⟩

theorem mem_pointMap (surf1 : triSurface) (mask : boolList) (p : Int) :
    p ∈ (subsetMesh surf1 mask).pointMap
      ↔ ∃ (f : Nat) (tri : triFace), selected mask f = true ∧ surf1.faces[f]? = some tri
          ∧ p ∈ tri.labels := by
  rw [subsetMesh_pointMap, List.mem_insertionSort, List.mem_dedup, List.mem_flatten]
  constructor
  · rintro ⟨l, hl, hp⟩
    obtain ⟨tri, htri, rfl⟩ := List.mem_map.1 hl
    obtain ⟨f, hs, hget⟩ := (mem_retained surf1 mask tri).1 htri
    exact ⟨f, tri, hs, hget, hp⟩
  · rintro ⟨f, tri, hs, hget, hp⟩
    exact ⟨tri.labels, List.mem_map.2 ⟨tri, (mem_retained surf1 mask tri).2 ⟨f, hs, hget⟩, rfl⟩,
      hp⟩

theorem pointMap_sorted_le (surf1 : triSurface) (mask : boolList) :
    List.Sorted (fun p q : Int => p ≤ q) (subsetMesh surf1 mask).pointMap := by
  rw [subsetMesh_pointMap]
  exact List.sorted_insertionSort _ _

theorem pointMap_nodup (surf1 : triSurface) (mask : boolList) :
    (subsetMesh surf1 mask).pointMap.Nodup := by
  rw [subsetMesh_pointMap]
  exact (List.perm_insertionSort _ _).nodup_iff.2 (List.nodup_dedup _)

theorem subsetMesh_points (surf1 : triSurface) (mask : boolList) :
    (subsetMesh surf1 mask).surf2.points
      = (subsetMesh surf1 mask).pointMap.map (pointAt surf1.points) :=
  rfl

theorem subsetMesh_faces (surf1 : triSurface) (mask : boolList) :
    (subsetMesh surf1 mask).surf2.faces
      = (((List.range surf1.size).filter (fun f => selected mask f)).filterMap
            (fun f => surf1.faces[f]?)).map
          (fun tri => ⟨((subsetMesh surf1 mask).pointMap.indexOf tri.a : Nat),
            ((subsetMesh surf1 mask).pointMap.indexOf tri.b : Nat),
            ((subsetMesh surf1 mask).pointMap.indexOf tri.c : Nat)⟩) :=
  rfl

theorem filterMap_getElem?_range (l : List triFace) :
    (List.range l.length).filterMap (fun i => l[i]?) = l := by
  induction l with
  | nil => rfl
  | cons x xs ih =>
    rw [List.length_cons, List.range_succ_eq_map, List.filterMap_cons]
    simp only [List.getElem?_cons_zero, List.filterMap_map]
    have hstep : ((fun i => (x :: xs)[i]?) ∘ Nat.succ) = (fun i => xs[i]?) := by
      funext i
      simp
    rw [hstep, ih]

theorem filter_selected_all_true (n : Nat) :
    (List.range n).filter (fun f => selected (List.replicate n true) f) = List.range n := by
  apply List.filter_eq_self.2
  intro f hf
  have hlt : f < n := List.mem_range.1 hf
  rw [selected_eq_getElem _ _ (by simpa using hlt)]
  simp

theorem filter_selected_all_false (n : Nat) :
    (List.range n).filter (fun f => selected (List.replicate n false) f) = [] := by
  apply List.filter_eq_nil_iff.2
  intro f _
  rw [selected_replicate_false]
  simp

theorem sorted_le_range_cast (n : Nat) :
    List.Sorted (fun p q : Int => p ≤ q) ((List.range n).map (fun i : Nat => (i : Int))) := by
  apply List.Pairwise.map _ _ (List.pairwise_lt_range n)
  intro a b hab
  exact Int.ofNat_le.2 (Nat.le_of_lt hab)

theorem nodup_range_cast (n : Nat) :
    ((List.range n).map (fun i : Nat => (i : Int))).Nodup := by
  apply List.Nodup.map _ (List.nodup_range n)
  intro a b hab
  exact Int.ofNat.inj hab

theorem mem_range_cast (n : Nat) (l : Int) :
    l ∈ (List.range n).map (fun i : Nat => (i : Int)) ↔ 0 ≤ l ∧ l < (n : Int) := by
  simp only [List.mem_map, List.mem_range]
  constructor
  · rintro ⟨i, hi, rfl⟩
    omega
  · rintro ⟨h0, hlt⟩
    exact ⟨l.toNat, by omega, by omega⟩

theorem indexOf_range_cast (n k : Nat) (hk : k < n) :
    List.indexOf (k : Int) ((List.range n).map (fun i : Nat => (i : Int))) = k := by
  have hlen : k < ((List.range n).map (fun i : Nat => (i : Int))).length := by simpa using hk
  have h := List.indexOf_getElem (nodup_range_cast n) k hlen
  simpa using h

theorem map_pointAt_range (points : pointField) :
    ((List.range points.length).map (fun i : Nat => (i : Int))).map (pointAt points)
      = points := by
  apply List.ext_getElem
  · simp
  · intro i h1 h2
    simp [pointAt, h2]

/-! ## Counting the selected faces -/

theorem nSelected_set_true (m : boolList) (i : Nat) (hi : i < m.length) :
    nSelected (m.set i true) = nSelected m + (if selected m i = true then 0 else 1) := by
  unfold nSelected
  rw [List.count_set true true m i hi, selected_eq_getElem _ _ hi]
  have hpos : m[i] = true → 0 < m.count true := by
    intro h
    exact List.count_pos_iff.2 (h ▸ List.getElem_mem hi)
  cases hb : m[i]
  · simp
  · have := hpos hb
    simp
    omega

theorem neighboursLoop_count (curFaces : labelList) (m m' : boolList) (n n' : Nat)
    (h : neighboursLoop curFaces m n = .ok (m', n')) :
    nSelected m' + n = nSelected m + n' := by
  induction curFaces generalizing m n with
  | nil =>
    simp only [neighboursLoop, Except.ok.injEq, Prod.mk.injEq] at h
    obtain ⟨rfl, rfl⟩ := h
    rfl
  | cons g gs ih =>
    simp only [neighboursLoop] at h
    split at h
    · rename_i hv
      split at h
      · exact ih _ _ h
      · rename_i hs
        have hlt : g.toNat < m.length := by omega
        have := ih _ _ h
        rw [nSelected_set_true m _ hlt, if_neg hs] at this
        omega
    · cases h

theorem facesLoop_eq_counting (surf1 : triSurface) (add : Bool) (markedFaces : labelList)
    (m : boolList) (n k : Nat) :
    facesLoop surf1 add markedFaces m n
      = match facesLoopCounting surf1 add markedFaces m n k with
        | .error e => .error e
        | .ok (m', n', _) => .ok (m', n') := by
  induction markedFaces generalizing m n k with
  | nil => rfl
  | cons g gs ih =>
    simp only [facesLoop, facesLoopCounting]
    split
    · rfl
    · split
      · rfl
      · split
        · split
          · rfl
          · split
            · rfl
            · exact ih _ _ _
        · exact ih _ _ _

theorem facesLoopCounting_count (surf1 : triSurface) (add : Bool) (markedFaces : labelList)
    (m m' : boolList) (n n' k k' : Nat)
    (h : facesLoopCounting surf1 add markedFaces m n k = .ok (m', n', k')) :
    nSelected m' + n + k = nSelected m + n' + k'
      ∧ k' ≤ k + markedFaces.length
      ∧ (add = false → n' = n) := by
  induction markedFaces generalizing m n k with
  | nil =>
    simp only [facesLoopCounting, Except.ok.injEq, Prod.mk.injEq] at h
    obtain ⟨rfl, rfl, rfl⟩ := h
    exact ⟨rfl, by simp, fun _ => rfl⟩
  | cons g gs ih =>
    simp only [facesLoopCounting] at h
    split at h
    · cases h
    · rename_i hr
      split at h
      · cases h
      · rename_i hl
        have hlt : g.toNat < m.length := by omega
        have hset := nSelected_set_true m _ hlt
        split at h
        · rename_i hadd
          split at h
          · cases h
          · split at h
            · cases h
            · rename_i m2 n2 hn
              have hc := neighboursLoop_count _ _ _ _ _ hn
              obtain ⟨h1, h2, _⟩ := ih _ _ _ h
              have hoff : add = false → n' = n := by
                intro hoff
                rw [hoff] at hadd
                cases hadd
              rw [List.length_cons]
              by_cases hs : selected m g.toNat = true
              · rw [if_pos hs] at h1 h2 hset
                exact ⟨by omega, by omega, hoff⟩
              · rw [if_neg hs] at h1 h2 hset
                exact ⟨by omega, by omega, hoff⟩
        · obtain ⟨h1, h2, h3⟩ := ih _ _ _ h
          rw [List.length_cons]
          by_cases hs : selected m g.toNat = true
          · rw [if_pos hs] at h1 h2 hset
            exact ⟨by omega, by omega, h3⟩
          · rw [if_neg hs] at h1 h2 hset
            exact ⟨by omega, by omega, h3⟩

/-! ## No subscript leaves its list -/

theorem length_invert (inv : Bool) (m : boolList) : (invert inv m).length = m.length := by
  cases inv <;> simp [invert]

theorem pointsLoop_error_safe (surf1 : triSurface) (markedPoints : labelList) (m : boolList)
    (e : Abort)
    (hadj : ∀ curFaces ∈ surf1.pointFaces, ∀ f ∈ curFaces, inRange m.length f)
    (h : pointsLoop surf1 markedPoints m = .error e) :
    e.error.isCheckIndex = false ∧ e.facesToSubset.length = m.length := by
  induction markedPoints generalizing m with
  | nil => cases h
  | cons p ps ih =>
    by_cases hr : p < 0 ∨ p ≥ (surf1.nPoints : Int)
    · simp only [pointsLoop, if_pos hr] at h
      cases h
      exact ⟨rfl, rfl⟩
    · have hp : inRange surf1.pointFaces.length p := by
        unfold inRange
        unfold triSurface.nPoints at hr
        omega
      have hm1 := (markFaces_eq_ok_iff (surf1.pointFaces.getD p.toNat []) m _).2
        ⟨table_valid_getD _ _ hadj _, rfl⟩
      simp only [pointsLoop, if_neg hr, getElem?_of_inRange _ _ hp, hm1] at h
      have := ih (orMask m _) (by simpa [length_orMask] using hadj) h
      rw [length_orMask] at this
      exact this

theorem edgesLoop_error_safe (surf1 : triSurface) (markedEdges : labelList) (m : boolList)
    (e : Abort)
    (hadj : ∀ curFaces ∈ surf1.edgeFaces, ∀ f ∈ curFaces, inRange m.length f)
    (h : edgesLoop surf1 markedEdges m = .error e) :
    e.error.isCheckIndex = false ∧ e.facesToSubset.length = m.length := by
  induction markedEdges generalizing m with
  | nil => cases h
  | cons p ps ih =>
    by_cases hr : p < 0 ∨ p ≥ (surf1.nEdges : Int)
    · simp only [edgesLoop, if_pos hr] at h
      cases h
      exact ⟨rfl, rfl⟩
    · have hp : inRange surf1.edgeFaces.length p := by
        unfold inRange
        unfold triSurface.nEdges at hr
        omega
      have hm1 := (markFaces_eq_ok_iff (surf1.edgeFaces.getD p.toNat []) m _).2
        ⟨table_valid_getD _ _ hadj _, rfl⟩
      simp only [edgesLoop, if_neg hr, getElem?_of_inRange _ _ hp, hm1] at h
      have := ih (orMask m _) (by simpa [length_orMask] using hadj) h
      rw [length_orMask] at this
      exact this

theorem facesLoop_error_safe (surf1 : triSurface) (add : Bool) (markedFaces : labelList)
    (m : boolList) (n : Nat) (e : Abort) (hm : m.length = surf1.size)
    (hadj : add = true →
      validFaceLabels surf1 surf1.faceFaces ∧ surf1.faceFaces.length = surf1.size)
    (h : facesLoop surf1 add markedFaces m n = .error e) :
    e.error.isCheckIndex = false ∧ e.facesToSubset.length = surf1.size := by
  induction markedFaces generalizing m n with
  | nil => cases h
  | cons g gs ih =>
    by_cases hr : g < 0 ∨ g ≥ (surf1.size : Int)
    · simp only [facesLoop, if_pos hr] at h
      cases h
      exact ⟨rfl, hm⟩
    · have hl : ¬ ¬ g < (m.length : Int) := by
        rw [hm]
        omega
      cases add with
      | false =>
        simp only [facesLoop, if_neg hr, if_neg hl, Bool.false_eq_true, if_false] at h
        exact ih _ _ (by rw [List.length_set, hm]) h
      | true =>
        obtain ⟨hv, hlen⟩ := hadj rfl
        have hg : inRange surf1.faceFaces.length g := by
          unfold inRange
          omega
        have hloop := neighboursLoop_ok (surf1.faceFaces.getD g.toNat [])
          (m.set g.toNat true) n (by
            rw [List.length_set, hm]
            exact table_valid_getD _ _ hv _)
        simp only [facesLoop, if_neg hr, if_neg hl, if_true, getElem?_of_inRange _ _ hg,
          hloop] at h
        exact ih _ _ (by rw [length_orMask, List.length_set, hm]) h

theorem applyCriterion_safe (getVolumeType : point → volumeType) (surf1 : triSurface)
    (dict : surfaceSubsetDict) (hwf : surf1.wellFormed) (c : criterion) (m : boolList)
    (hm : m.length = surf1.size) :
    (∀ m', applyCriterion getVolumeType surf1 dict c m = .ok m' → m'.length = surf1.size)
      ∧ (∀ e, applyCriterion getVolumeType surf1 dict c m = .error e →
          e.error.isCheckIndex = false ∧ e.facesToSubset.length = surf1.size) := by
  obtain ⟨hpf, hef, hff, hlen⟩ := hwf
  cases c with
  | localPoints =>
    simp only [applyCriterion, pickPoints_eq]
    constructor
    · intro m' h
      rw [((pointsLoop_eq_ok_iff _ _ _ _).1 h).2, length_orMask, hm]
    · intro e h
      have := pointsLoop_error_safe surf1 _ m e (by rw [hm]; exact hpf) h
      rw [hm] at this
      exact this
  | edges =>
    simp only [applyCriterion, pickEdges_eq]
    constructor
    · intro m' h
      rw [((edgesLoop_eq_ok_iff _ _ _ _).1 h).2, length_orMask, hm]
    · intro e h
      have := edgesLoop_error_safe surf1 _ m e (by rw [hm]; exact hef) h
      rw [hm] at this
      exact this
  | zone =>
    simp only [applyCriterion, pickZone_ok _ _ _ hm]
    constructor
    · intro m' h
      cases h
      rw [length_orMask, hm]
    · intro e h
      cases h
  | surface =>
    simp only [applyCriterion, pickSurface_ok _ _ _ _ hm]
    constructor
    · intro m' h
      cases h
      rw [length_orMask, hm]
    · intro e h
      cases h
  | faces =>
    simp only [applyCriterion, pickFaces_eq]
    constructor
    · intro m' h
      split at h
      · cases h
      · rename_i m2 n2 h2
        cases h
        rw [((facesLoop_eq_ok_iff _ _ _ _ _ _).1 ⟨n2, h2⟩).2, length_orMask, hm]
    · intro e h
      split at h
      · rename_i e2 h2
        cases h
        exact facesLoop_error_safe surf1 _ _ m 0 _ hm (fun _ => ⟨hff, hlen⟩) h2
      · cases h

theorem selectFaces_error_safe (getVolumeType : point → volumeType) (surf1 : triSurface)
    (dict : surfaceSubsetDict) (hwf : surf1.wellFormed) (e : Abort)
    (h : selectFaces getVolumeType surf1 dict = .error e) :
    e.error.isCheckIndex = false ∧ e.facesToSubset.length = surf1.size := by
  obtain ⟨hpf, hef, hff, hlen⟩ := hwf
  have hl0 : (List.replicate surf1.size false).length = surf1.size := List.length_replicate _ _
  simp only [selectFaces] at h
  split at h
  · rename_i e1 h1
    cases h
    rw [pickPoints_eq] at h1
    have := pointsLoop_error_safe surf1 _ _ _ (by rw [hl0]; exact hpf) h1
    rw [hl0] at this
    exact this
  · rename_i m1 h1
    have hl1 : m1.length = surf1.size := by
      rw [pickPoints_eq] at h1
      rw [((pointsLoop_eq_ok_iff _ _ _ _).1 h1).2, length_orMask, hl0]
    split at h
    · rename_i e2 h2
      cases h
      rw [pickEdges_eq] at h2
      have := edgesLoop_error_safe surf1 _ _ _ (by rw [hl1]; exact hef) h2
      rw [hl1] at this
      exact this
    · rename_i m2 h2
      have hl2 : m2.length = surf1.size := by
        rw [pickEdges_eq] at h2
        rw [((edgesLoop_eq_ok_iff _ _ _ _).1 h2).2, length_orMask, hl1]
      rw [pickZone_ok _ _ _ hl2] at h
      simp only at h
      rw [pickSurface_ok _ _ _ _ (by rw [length_orMask, hl2])] at h
      simp only at h
      split at h
      · rename_i e5 h5
        cases h
        rw [pickFaces_eq] at h5
        exact facesLoop_error_safe surf1 _ _ _ 0 _ (by rw [length_orMask, length_orMask, hl2])
          (fun _ => ⟨hff, hlen⟩) h5
      · cases h

/-! ## Properties of the criteria and of the run -/

/-- C3: on a surface whose `pointFaces` holds valid face indices, with a mask of
one entry per face and listed points all inside `[0, nPoints)`, the point
criterion completes with a mask of the same length in which face `f` is
selected iff it was selected before or `f` is in `pointFaces[p]` for a listed
`p`; an empty list leaves the mask as it is; on the tetrahedron, from the
all-false mask, `localPoints = [0]` selects exactly the three faces that have
point 0 as a vertex. -/
theorem pickPoints_selects_incident_faces (surf1 : triSurface) (markedPoints : labelList)
    (facesToSubset : boolList)
    (hm : facesToSubset.length = surf1.size)
    (hadj : validFaceLabels surf1 surf1.pointFaces)
    (hp : ∀ p ∈ markedPoints, 0 ≤ p ∧ p < (surf1.nPoints : Int)) :
    (∃ m', pickPoints surf1 markedPoints facesToSubset = .ok m'
        ∧ m'.length = facesToSubset.length
        ∧ ∀ f : Nat, selected m' f = true ↔
            selected facesToSubset f = true
              ∨ ∃ p ∈ markedPoints, 0 ≤ p ∧ ∃ curFaces,
                  surf1.pointFaces[p.toNat]? = some curFaces ∧ (f : Int) ∈ curFaces)
      ∧ pickPoints surf1 [] facesToSubset = .ok facesToSubset
      ∧ pickPoints tetrahedron [0] (List.replicate 4 false)
          = .ok (tetrahedron.faces.map (fun tri => tri.labels.contains 0))
      ∧ tetrahedron.faces.map (fun tri => tri.labels.contains 0) = [true, true, true, false] := by
  have hadj' : ∀ curFaces ∈ surf1.pointFaces, ∀ f ∈ curFaces, inRange facesToSubset.length f := by
    rw [hm]
    exact hadj
  refine ⟨⟨_, pickPoints_ok surf1 markedPoints facesToSubset hadj' hp, length_orMask _ _, ?_⟩,
    rfl, rfl, rfl⟩
  intro f
  rw [selected_orMask_iff, ← any_adjacent_iff]
  constructor
  · rintro (h | ⟨_, h⟩)
    · exact Or.inl h
    · exact Or.inr h
  · rintro (h | h)
    · exact Or.inl h
    · exact Or.inr ⟨adjacent_lt _ _ hadj' _ _ h, h⟩

/-- An instance of the point criterion on the tetrahedron with `localPoints =
[0]`. -/
theorem pickPoints_selects_incident_faces_witness :
    (∃ m', pickPoints tetrahedron [0] (List.replicate 4 false) = .ok m'
        ∧ m'.length = (List.replicate 4 false).length
        ∧ ∀ f : Nat, selected m' f = true ↔
            selected (List.replicate 4 false) f = true
              ∨ ∃ p ∈ ([0] : labelList), 0 ≤ p ∧ ∃ curFaces,
                  tetrahedron.pointFaces[p.toNat]? = some curFaces ∧ (f : Int) ∈ curFaces) :=
  (pickPoints_selects_incident_faces tetrahedron [0] (List.replicate 4 false)
    (by decide) (by decide) (by decide)).1

/-- C4: on a surface whose `edgeFaces` holds valid face indices, with a mask of
one entry per face: when the listed edges are all inside `[0, nEdges)` the edge
criterion completes with a mask of the same length in which face `f` is
selected iff it was selected before or `f` is in `edgeFaces[e]` for a listed
`e`; when a listed edge is negative or at least `nEdges` the criterion stops
with the out-of-range error of such an edge. -/
theorem pickEdges_selects_or_fails (surf1 : triSurface) (markedEdges : labelList)
    (facesToSubset : boolList)
    (hm : facesToSubset.length = surf1.size)
    (hadj : validFaceLabels surf1 surf1.edgeFaces) :
    ((∀ e ∈ markedEdges, 0 ≤ e ∧ e < (surf1.nEdges : Int)) →
        ∃ m', pickEdges surf1 markedEdges facesToSubset = .ok m'
          ∧ m'.length = facesToSubset.length
          ∧ ∀ f : Nat, selected m' f = true ↔
              selected facesToSubset f = true
                ∨ ∃ e ∈ markedEdges, 0 ≤ e ∧ ∃ curFaces,
                    surf1.edgeFaces[e.toNat]? = some curFaces ∧ (f : Int) ∈ curFaces)
      ∧ ((∃ e ∈ markedEdges, e < 0 ∨ e ≥ (surf1.nEdges : Int)) →
        ∃ v m', v ∈ markedEdges ∧ (v < 0 ∨ v ≥ (surf1.nEdges : Int))
          ∧ pickEdges surf1 markedEdges facesToSubset
              = .error ⟨.edgeOutOfRange v surf1.nEdges, m'⟩) := by
  have hadj' : ∀ curFaces ∈ surf1.edgeFaces, ∀ f ∈ curFaces, inRange facesToSubset.length f := by
    rw [hm]
    exact hadj
  constructor
  · intro hp
    refine ⟨_, pickEdges_ok surf1 markedEdges facesToSubset hadj' hp, length_orMask _ _, ?_⟩
    intro f
    rw [selected_orMask_iff, ← any_adjacent_iff]
    constructor
    · rintro (h | ⟨_, h⟩)
      · exact Or.inl h
      · exact Or.inr h
    · rintro (h | h)
      · exact Or.inl h
      · exact Or.inr ⟨adjacent_lt _ _ hadj' _ _ h, h⟩
  · intro hbad
    rw [pickEdges_eq]
    exact edgesLoop_error surf1 markedEdges facesToSubset hadj' hbad

/-- An instance of the edge criterion on the tetrahedron: edges `[0, 5]` are in
range, edge `6` is not. -/
theorem pickEdges_selects_or_fails_witness :
    (∃ m', pickEdges tetrahedron [0, 5] (List.replicate 4 false) = .ok m'
        ∧ m'.length = (List.replicate 4 false).length
        ∧ ∀ f : Nat, selected m' f = true ↔
            selected (List.replicate 4 false) f = true
              ∨ ∃ e ∈ ([0, 5] : labelList), 0 ≤ e ∧ ∃ curFaces,
                  tetrahedron.edgeFaces[e.toNat]? = some curFaces ∧ (f : Int) ∈ curFaces)
      ∧ (∃ v m', v ∈ ([0, 6] : labelList) ∧ (v < 0 ∨ v ≥ (tetrahedron.nEdges : Int))
          ∧ pickEdges tetrahedron [0, 6] (List.replicate 4 false)
              = .error ⟨.edgeOutOfRange v tetrahedron.nEdges, m'⟩) :=
  ⟨(pickEdges_selects_or_fails tetrahedron [0, 5] (List.replicate 4 false)
      (by decide) (by decide)).1 (by decide),
   (pickEdges_selects_or_fails tetrahedron [0, 6] (List.replicate 4 false)
      (by decide) (by decide)).2 ⟨6, by decide, by decide⟩⟩

/-- C5: with a mask of one entry per face and a zone of two points `min`, `max`,
the region criterion completes with a mask of the same length in which every
face `f`, of triangle `tri`, is selected iff it was selected before or the
centroid of `tri` lies in the closed box `[min, max]` component-wise; a face
whose centroid is on the boundary of the box is selected; and from the
all-false mask a box that holds no face centroid leaves the mask all false. -/
theorem pickZone_selects_closed_box (surf1 : triSurface) (facesToSubset : boolList)
    (min max : point) (hm : facesToSubset.length = surf1.size) :
    (∃ m', pickZone surf1 [min, max] facesToSubset = .ok m'
        ∧ m'.length = facesToSubset.length
        ∧ (∀ (f : Nat) (tri : triFace), surf1.faces[f]? = some tri →
            (selected m' f = true ↔
              selected facesToSubset f = true ∨ inBox min max (tri.centre surf1.points)))
        ∧ (∀ (f : Nat) (tri : triFace), surf1.faces[f]? = some tri →
            (tri.centre surf1.points).x = max.x →
            min.x ≤ max.x →
            min.y ≤ (tri.centre surf1.points).y → (tri.centre surf1.points).y ≤ max.y →
            min.z ≤ (tri.centre surf1.points).z → (tri.centre surf1.points).z ≤ max.z →
            selected m' f = true))
      ∧ ((∀ tri ∈ surf1.faces, ¬ inBox min max (tri.centre surf1.points)) →
          pickZone surf1 [min, max] (List.replicate surf1.size false)
            = .ok (List.replicate surf1.size false)) := by
  have hchar : ∀ (m : boolList), m.length = surf1.size →
      ∀ (f : Nat) (tri : triFace), surf1.faces[f]? = some tri →
        (selected (orMask m (zoneFaces surf1 [min, max])) f = true ↔
          selected m f = true ∨ inBox min max (tri.centre surf1.points)) := by
    intro m hml f tri hf
    have hlt : f < m.length := hml ▸ lt_size_of_getElem? surf1 f tri hf
    rw [selected_orMask_iff]
    simp only [zoneFaces, faceCentre_of_getElem? surf1 f tri hf, decide_eq_true_eq, hlt,
      true_and]
  refine ⟨⟨_, pickZone_ok surf1 [min, max] facesToSubset hm, length_orMask _ _,
    hchar facesToSubset hm, ?_⟩, ?_⟩
  · intro f tri hf hx hxx hy1 hy2 hz1 hz2
    apply (hchar facesToSubset hm f tri hf).2
    right
    exact ⟨hx ▸ hxx, le_of_eq hx, hy1, hy2, hz1, hz2⟩
  · intro hnone
    rw [pickZone_ok surf1 [min, max] _ (by simp)]
    congr 1
    apply orMask_self
    intro f hf hz
    exfalso
    have hlt : f < surf1.faces.length := by simpa [triSurface.size] using hf
    have hget : surf1.faces[f]? = some (surf1.faces[f]) := List.getElem?_eq_getElem hlt
    simp only [zoneFaces, faceCentre_of_getElem? surf1 f _ hget, decide_eq_true_eq] at hz
    exact hnone _ (List.getElem_mem _) hz

/-- An instance of the region criterion on the tetrahedron: no face centroid
lies in the box `[(2,2,2), (3,3,3)]`, and the all-false mask stays all false. -/
theorem pickZone_selects_closed_box_witness :
    (List.replicate 4 false).length = tetrahedron.size
      ∧ (∀ tri ∈ tetrahedron.faces,
          ¬ inBox ⟨2, 2, 2⟩ ⟨3, 3, 3⟩ (tri.centre tetrahedron.points))
      ∧ pickZone tetrahedron [⟨2, 2, 2⟩, ⟨3, 3, 3⟩] (List.replicate tetrahedron.size false)
          = .ok (List.replicate tetrahedron.size false) := by
  have hnone : ∀ tri ∈ tetrahedron.faces,
      ¬ inBox ⟨2, 2, 2⟩ ⟨3, 3, 3⟩ (tri.centre tetrahedron.points) := by
    intro tri htri
    simp only [tetrahedron, List.mem_cons, List.mem_singleton, List.not_mem_nil, or_false]
      at htri
    have h1 : Int.toNat 1 = 1 := rfl
    have h2 : Int.toNat 2 = 2 := rfl
    have h3 : Int.toNat 3 = 3 := rfl
    rcases htri with h | h | h | h <;> subst h <;>
      norm_num [inBox, triFace.centre, pointAt, tetrahedron, h1, h2, h3]
  exact ⟨by decide, hnone,
    (pickZone_selects_closed_box tetrahedron (List.replicate 4 false) ⟨2, 2, 2⟩ ⟨3, 3, 3⟩
      (by decide)).2 hnone⟩

/-- C7: with a mask of one entry per face, a classification query and the switch
`outside`, the classification criterion completes with a mask of the same
length in which every face `f`, of triangle `tri`, is selected iff it was
selected before or the centroid of `tri` classifies OUTSIDE when `outside` is
set, INSIDE when it is not; a face not selected before whose centroid
classifies as anything else (MIXED included) stays unselected, and a face
selected before stays selected. -/
theorem pickSurface_selects_requested_side (getVolumeType : point → volumeType)
    (surf1 : triSurface) (facesToSubset : boolList) (outside : Bool)
    (hm : facesToSubset.length = surf1.size) :
    ∃ m', pickSurface getVolumeType surf1 (some ⟨outside⟩) facesToSubset = .ok m'
      ∧ m'.length = facesToSubset.length
      ∧ (∀ (f : Nat) (tri : triFace), surf1.faces[f]? = some tri →
          (selected m' f = true ↔
            selected facesToSubset f = true
              ∨ (outside = true ∧ getVolumeType (tri.centre surf1.points) = volumeType.OUTSIDE)
              ∨ (outside = false
                  ∧ getVolumeType (tri.centre surf1.points) = volumeType.INSIDE)))
      ∧ (∀ (f : Nat) (tri : triFace), surf1.faces[f]? = some tri →
          selected facesToSubset f = false →
          getVolumeType (tri.centre surf1.points) = volumeType.MIXED →
          selected m' f = false)
      ∧ (∀ (f : Nat) (tri : triFace), surf1.faces[f]? = some tri →
          selected facesToSubset f = false →
          getVolumeType (tri.centre surf1.points)
            ≠ (if outside then volumeType.OUTSIDE else volumeType.INSIDE) →
          selected m' f = false)
      ∧ (∀ f : Nat, selected facesToSubset f = true → selected m' f = true) := by
  have hchar : ∀ (f : Nat) (tri : triFace), surf1.faces[f]? = some tri →
      (selected (orMask facesToSubset (surfaceFaces getVolumeType surf1 (some ⟨outside⟩))) f
          = true ↔
        selected facesToSubset f = true
          ∨ getVolumeType (tri.centre surf1.points)
              = (if outside then volumeType.OUTSIDE else volumeType.INSIDE)) := by
    intro f tri hf
    have hlt : f < facesToSubset.length := hm ▸ lt_size_of_getElem? surf1 f tri hf
    rw [selected_orMask_iff]
    simp only [surfaceFaces, faceCentre_of_getElem? surf1 f tri hf, decide_eq_true_eq, hlt,
      true_and]
  have hstay : ∀ (f : Nat) (tri : triFace), surf1.faces[f]? = some tri →
      selected facesToSubset f = false →
      getVolumeType (tri.centre surf1.points)
        ≠ (if outside then volumeType.OUTSIDE else volumeType.INSIDE) →
      selected (orMask facesToSubset (surfaceFaces getVolumeType surf1 (some ⟨outside⟩))) f
        = false := by
    intro f tri hf hs hne
    cases hsel : selected (orMask facesToSubset
        (surfaceFaces getVolumeType surf1 (some ⟨outside⟩))) f
    · rfl
    · rcases (hchar f tri hf).1 hsel with h | h
      · rw [hs] at h
        cases h
      · exact absurd h hne
  refine ⟨_, pickSurface_ok getVolumeType surf1 (some ⟨outside⟩) facesToSubset hm,
    length_orMask _ _, ?_, ?_, hstay, ?_⟩
  · intro f tri hf
    rw [hchar f tri hf]
    cases outside <;> simp
  · intro f tri hf hs hmixed
    apply hstay f tri hf hs
    rw [hmixed]
    cases outside <;> simp
  · intro f hs
    exact (selected_orMask_iff _ _ _).2 (Or.inl hs)

/-- An instance of the classification criterion on the tetrahedron with a query
that answers MIXED everywhere: no face becomes selected. -/
theorem pickSurface_selects_requested_side_witness :
    (List.replicate 4 false).length = tetrahedron.size
      ∧ ∃ m', pickSurface allMixed tetrahedron (some ⟨true⟩) (List.replicate 4 false) = .ok m'
        ∧ ∀ (f : Nat) (tri : triFace), tetrahedron.faces[f]? = some tri →
            selected (List.replicate 4 false) f = false →
            allMixed (tri.centre tetrahedron.points) = volumeType.MIXED →
            selected m' f = false := by
  obtain ⟨m', h1, _, _, h4, _⟩ :=
    pickSurface_selects_requested_side allMixed tetrahedron (List.replicate 4 false) true
      (by decide)
  exact ⟨by decide, m', h1, h4⟩

/-- C6: when the zone has a size other than 0 or 2 the run stops with the zone
error, whatever the surface, the classification query and the other entries
of the dictionary are; with an empty zone the run does not stop with the zone
error and the region criterion returns the mask it was given. -/
theorem zone_size_check (getVolumeType : point → volumeType) (surf1 : triSurface)
    (dict : surfaceSubsetDict) :
    (dict.zone.length ≠ 0 ∧ dict.zone.length ≠ 2 →
        main getVolumeType surf1 dict = .error (.zoneSpec dict.zone))
      ∧ (dict.zone.length = 0 →
        (∀ zone, main getVolumeType surf1 dict ≠ .error (.zoneSpec zone))
          ∧ ∀ facesToSubset, pickZone surf1 dict.zone facesToSubset = .ok facesToSubset) := by
  constructor
  · intro hz
    simp only [main, if_pos hz]
  · intro hz
    have hnil : dict.zone = [] := List.length_eq_zero.1 hz
    constructor
    · intro zone hmain
      have hguard : ¬ (dict.zone.length ≠ 0 ∧ dict.zone.length ≠ 2) := fun h => h.1 hz
      simp only [main, if_neg hguard] at hmain
      split at hmain
      · rename_i e he
        have hk := selectFaces_error_kind _ _ _ _ he
        have : e.error = .zoneSpec zone := Except.error.inj hmain
        rw [this] at hk
        cases hk
      · cases hmain
    · intro facesToSubset
      rw [hnil]
      rfl

/-- An instance of the zone check: a zone of one point with out-of-range point,
edge and face labels on the tetrahedron stops with the zone error; an empty zone
does not. -/
theorem zone_size_check_witness :
    main allMixed tetrahedron badZoneDict = .error (.zoneSpec [⟨0, 0, 0⟩])
    ∧ ((∀ zone, main allMixed tetrahedron emptyDict ≠ .error (.zoneSpec zone))
        ∧ ∀ facesToSubset, pickZone tetrahedron emptyDict.zone facesToSubset
            = .ok facesToSubset) :=
  ⟨(zone_size_check allMixed tetrahedron badZoneDict).1 (by decide),
   (zone_size_check allMixed tetrahedron emptyDict).2 (by decide)⟩

/-- C8: with a mask of one entry per face and listed faces all inside
`[0, nFaces)` (and, when `addFaceNeighbours` is on, a `faceFaces` table of one
entry per face holding valid face indices), the explicit-face criterion
completes with a mask of the same length in which face `f` is selected iff it
was selected before, or `f` is listed, or `addFaceNeighbours` is on and `f` is
in `faceFaces[g]` for a listed `g`; with `addFaceNeighbours` off an unlisted
face keeps its entry; and any list with the same members, in any order and
with any repetition, yields the same mask. -/
theorem pickFaces_selects_listed_and_neighbours (surf1 : triSurface)
    (markedFaces : labelList) (addFaceNeighbours : Bool) (facesToSubset : boolList)
    (hm : facesToSubset.length = surf1.size)
    (hl : ∀ g ∈ markedFaces, 0 ≤ g ∧ g < (surf1.size : Int))
    (hadj : addFaceNeighbours = true →
      validFaceLabels surf1 surf1.faceFaces ∧ surf1.faceFaces.length = surf1.size) :
    ∃ m' n, pickFaces surf1 markedFaces addFaceNeighbours facesToSubset = .ok (m', n)
      ∧ m'.length = facesToSubset.length
      ∧ (∀ f : Nat, selected m' f = true ↔
          selected facesToSubset f = true
            ∨ (f : Int) ∈ markedFaces
            ∨ (addFaceNeighbours = true ∧ ∃ g ∈ markedFaces, 0 ≤ g ∧ ∃ curFaces,
                surf1.faceFaces[g.toNat]? = some curFaces ∧ (f : Int) ∈ curFaces))
      ∧ (addFaceNeighbours = false →
          ∀ f : Nat, (f : Int) ∉ markedFaces → selected m' f = selected facesToSubset f)
      ∧ (∀ markedFaces2 : labelList, (∀ g, g ∈ markedFaces2 ↔ g ∈ markedFaces) →
          ∃ n2, pickFaces surf1 markedFaces2 addFaceNeighbours facesToSubset = .ok (m', n2)) := by
  obtain ⟨n, hn⟩ := pickFaces_ok surf1 markedFaces addFaceNeighbours facesToSubset hm hl hadj
  have hchar : ∀ f : Nat,
      selected (orMask facesToSubset (listedFaces surf1 markedFaces addFaceNeighbours)) f = true ↔
        selected facesToSubset f = true
          ∨ (f : Int) ∈ markedFaces
          ∨ (addFaceNeighbours = true ∧ ∃ g ∈ markedFaces, 0 ≤ g ∧ ∃ curFaces,
              surf1.faceFaces[g.toNat]? = some curFaces ∧ (f : Int) ∈ curFaces) := by
    intro f
    rw [selected_orMask_iff, ← listedFaces_iff]
    constructor
    · rintro (h | ⟨_, h⟩)
      · exact Or.inl h
      · exact Or.inr h
    · rintro (h | h)
      · exact Or.inl h
      · exact Or.inr ⟨hm ▸ listedFaces_lt surf1 _ _ f hl (fun ha => (hadj ha).1) h, h⟩
  refine ⟨_, n, hn, length_orMask _ _, hchar, ?_, ?_⟩
  · intro hoff f hf
    rw [Bool.eq_iff_iff, hchar f]
    constructor
    · rintro (h | h | ⟨h, _⟩)
      · exact h
      · exact absurd h hf
      · rw [hoff] at h
        cases h
    · intro h
      exact Or.inl h
  · intro markedFaces2 hsame
    have hl2 : ∀ g ∈ markedFaces2, inRange surf1.size g := fun g hg => hl g ((hsame g).1 hg)
    obtain ⟨n2, hn2⟩ :=
      pickFaces_ok surf1 markedFaces2 addFaceNeighbours facesToSubset hm hl2 hadj
    rw [listedFaces_congr surf1 markedFaces markedFaces2 addFaceNeighbours hsame] at hn2
    exact ⟨n2, hn2⟩

/-- An instance of the explicit-face criterion on the tetrahedron with faces
`[0, 3]` and neighbour expansion; the list `[3, 0, 3]` has the same members. -/
theorem pickFaces_selects_listed_and_neighbours_witness :
    ∃ m' n, pickFaces tetrahedron [0, 3] true (List.replicate 4 false) = .ok (m', n)
      ∧ m'.length = (List.replicate 4 false).length
      ∧ ∃ n2, pickFaces tetrahedron [3, 0, 3] true (List.replicate 4 false) = .ok (m', n2) := by
  obtain ⟨m', n, h1, h2, _, _, h5⟩ :=
    pickFaces_selects_listed_and_neighbours tetrahedron [0, 3] true (List.replicate 4 false)
      (by decide) (by decide) (fun _ => by decide)
  have hsame : ∀ g : Int, g ∈ ([3, 0, 3] : labelList) ↔ g ∈ ([0, 3] : labelList) := by
    intro g
    simp only [List.mem_cons, List.mem_singleton, List.not_mem_nil, or_false]
    tauto
  exact ⟨m', n, h1, h2, h5 [3, 0, 3] hsame⟩

/-- C9: on a surface whose `faceFaces` has one entry per face and holds valid
face indices, for a face `f` in range, the explicit-face criterion with
`faces = [f]`, `addFaceNeighbours` on and the all-false mask completes; it
selects exactly `f` and the faces of `faceFaces[f]`, and its counter is the
number of distinct faces of `faceFaces[f]` other than `f`. On the tetrahedron
with face 0 all four faces are selected and the counter is 3. -/
theorem pickFaces_single_face_with_neighbours (surf1 : triSurface) (f : Nat)
    (hf : f < surf1.size)
    (hadj : validFaceLabels surf1 surf1.faceFaces)
    (hlen : surf1.faceFaces.length = surf1.size) :
    (∃ m', pickFaces surf1 [(f : Int)] true (List.replicate surf1.size false)
          = .ok (m', ((surf1.faceFaces.getD f []).dedup.filter
              (fun g => decide (g ≠ (f : Int)))).length)
        ∧ m'.length = surf1.size
        ∧ ∀ j : Nat, selected m' j = true ↔
            (j = f ∨ (j : Int) ∈ surf1.faceFaces.getD f []))
      ∧ pickFaces tetrahedron [0] true (List.replicate 4 false)
          = .ok ([true, true, true, true], 3) := by
  refine ⟨?_, rfl⟩
  have hr : ¬ ((f : Int) < 0 ∨ (f : Int) ≥ (surf1.size : Int)) := by omega
  have hl : ¬ ¬ (f : Int) < ((List.replicate surf1.size false).length : Int) := by
    rw [List.length_replicate]
    omega
  have hg : inRange surf1.faceFaces.length (f : Int) := by
    unfold inRange
    omega
  have hv : ∀ g ∈ surf1.faceFaces.getD f [], inRange surf1.size g :=
    table_valid_getD _ _ hadj _
  have hloop := neighboursLoop_ok (surf1.faceFaces.getD f [])
    ((List.replicate surf1.size false).set f true) 0 (by simpa using hv)
  have hcount : newNeighbours (surf1.faceFaces.getD f [])
        ((List.replicate surf1.size false).set f true)
      = ((surf1.faceFaces.getD f []).dedup.filter (fun g => decide (g ≠ (f : Int)))).length := by
    unfold newNeighbours
    congr 1
    apply List.filter_congr
    intro g hgm
    have hg0 := (hv g (List.mem_dedup.1 hgm)).1
    rw [selected_set_true, selected_replicate_false, List.length_replicate]
    by_cases hgf : g = (f : Int)
    · subst hgf
      simp [hf]
    · have : ¬ g.toNat = f := by omega
      simp [hgf, this]
  refine ⟨orMask ((List.replicate surf1.size false).set f true)
      (fun j => (surf1.faceFaces.getD f []).contains (j : Int)), ?_, ?_, ?_⟩
  · rw [pickFaces_eq]
    have hget := getElem?_of_inRange _ _ hg
    simp only [Int.toNat_ofNat] at hget
    simp only [facesLoop, if_neg hr, if_neg hl, if_true, Int.toNat_ofNat, hget, hloop,
      Nat.zero_add, hcount]
  · rw [length_orMask, List.length_set, List.length_replicate]
  · intro j
    rw [selected_orMask_iff, selected_set_true, selected_replicate_false,
      List.length_set, List.length_replicate]
    simp only [Bool.false_or, Bool.and_eq_true, decide_eq_true_eq, List.contains_eq_any_beq,
      List.any_eq_true, beq_iff_eq]
    constructor
    · rintro (⟨h, _⟩ | ⟨_, x, hx, hjx⟩)
      · exact Or.inl h
      · exact Or.inr (hjx ▸ hx)
    · rintro (h | h)
      · exact Or.inl ⟨h, h ▸ hf⟩
      · refine Or.inr ⟨?_, _, h, rfl⟩
        have := (hv _ h).2
        omega

/-- An instance of the neighbour counter on the tetrahedron with face 0: the
counter is the number of distinct neighbours of face 0, which is 3. -/
theorem pickFaces_single_face_with_neighbours_witness :
    (∃ m', pickFaces tetrahedron [((0 : Nat) : Int)] true (List.replicate tetrahedron.size false)
          = .ok (m', ((tetrahedron.faceFaces.getD 0 []).dedup.filter
              (fun g => decide (g ≠ ((0 : Nat) : Int)))).length)
        ∧ m'.length = tetrahedron.size
        ∧ ∀ j : Nat, selected m' j = true ↔
            (j = 0 ∨ (j : Int) ∈ tetrahedron.faceFaces.getD 0 []))
      ∧ ((tetrahedron.faceFaces.getD 0 []).dedup.filter
          (fun g => decide (g ≠ ((0 : Nat) : Int)))).length = 3 :=
  ⟨(pickFaces_single_face_with_neighbours tetrahedron 0 (by decide) (by decide)
      (by decide)).1, by decide⟩

/-- C1: on a surface whose adjacency tables hold only valid face indices (and
whose `faceFaces` has one entry per face), the run stops with an error iff
the zone is non-empty with a size other than 2, or a listed point lies outside
`[0, nPoints)`, or a listed edge lies outside `[0, nEdges)`, or a listed face
lies outside `[0, nFaces)`; it hands back a subset surface iff none of these
holds, and never both. -/
theorem main_fails_iff_invalid_input (getVolumeType : point → volumeType)
    (surf1 : triSurface) (dict : surfaceSubsetDict) (hwf : surf1.wellFormed) :
    ((∃ e, main getVolumeType surf1 dict = .error e) ↔
        ((dict.zone.length ≠ 0 ∧ dict.zone.length ≠ 2)
          ∨ outOfRange surf1.nPoints dict.localPoints
          ∨ outOfRange surf1.nEdges dict.edges
          ∨ outOfRange surf1.size dict.faces))
      ∧ ((∃ out, main getVolumeType surf1 dict = .ok out) ↔
        ¬ ((dict.zone.length ≠ 0 ∧ dict.zone.length ≠ 2)
          ∨ outOfRange surf1.nPoints dict.localPoints
          ∨ outOfRange surf1.nEdges dict.edges
          ∨ outOfRange surf1.size dict.faces))
      ∧ ((∃ e, main getVolumeType surf1 dict = .error e) →
        ¬ ∃ out, main getVolumeType surf1 dict = .ok out) := by
  have hok : (∃ out, main getVolumeType surf1 dict = .ok out) ↔
      ¬ ((dict.zone.length ≠ 0 ∧ dict.zone.length ≠ 2)
        ∨ outOfRange surf1.nPoints dict.localPoints
        ∨ outOfRange surf1.nEdges dict.edges
        ∨ outOfRange surf1.size dict.faces) := by
    constructor
    · rintro ⟨out, hout⟩
      obtain ⟨hz, sel, hsel, _⟩ := selectFaces_of_main _ _ _ _ hout
      obtain ⟨hp, he, hf, _⟩ := selectFaces_of_ok _ _ _ _ hsel
      rintro (h | h | h | h)
      · exact hz h
      · exact not_outOfRange_of_inRange _ _ hp h
      · exact not_outOfRange_of_inRange _ _ he h
      · exact not_outOfRange_of_inRange _ _ hf h
    · intro hnot
      have hz : ¬ (dict.zone.length ≠ 0 ∧ dict.zone.length ≠ 2) := fun h => hnot (Or.inl h)
      have hp := inRange_of_not_outOfRange _ _ (fun h => hnot (Or.inr (Or.inl h)))
      have he := inRange_of_not_outOfRange _ _ (fun h => hnot (Or.inr (Or.inr (Or.inl h))))
      have hf := inRange_of_not_outOfRange _ _ (fun h => hnot (Or.inr (Or.inr (Or.inr h))))
      obtain ⟨n, hn⟩ := selectFaces_ok getVolumeType surf1 dict hwf hp he hf
      exact ⟨_, main_of_selectFaces _ _ _ hz _ hn⟩
  refine ⟨?_, hok, ?_⟩
  · constructor
    · rintro ⟨e, he⟩
      by_contra hnot
      obtain ⟨out, hout⟩ := hok.2 hnot
      rw [he] at hout
      cases hout
    · intro hbad
      cases hmain : main getVolumeType surf1 dict with
      | error e => exact ⟨e, rfl⟩
      | ok out => exact absurd hbad (hok.1 ⟨out, hmain⟩)
  · rintro ⟨e, he⟩ ⟨out, hout⟩
    rw [he] at hout
    cases hout

/-- An instance of the input check on the tetrahedron: the empty dictionary is
accepted, a dictionary listing point 4 is rejected. -/
theorem main_fails_iff_invalid_input_witness :
    tetrahedron.wellFormed
      ∧ (∃ out, main allMixed tetrahedron emptyDict = .ok out)
      ∧ (∃ e, main allMixed tetrahedron badPointDict = .error e) :=
  ⟨by decide,
   (main_fails_iff_invalid_input allMixed tetrahedron emptyDict (by decide)).2.1.2 (by decide),
   (main_fails_iff_invalid_input allMixed tetrahedron badPointDict (by decide)).1.2
      (by decide)⟩

/-- C2: for every run that completes, with the classification query a fixed
function of the point, the final mask of the in-place accumulation is the
mask of the pure fold: it has one entry per face and face `f` is selected iff
`invertSelection` XOR (`f` is in `pointFaces[p]` for a listed point, or in
`edgeFaces[e]` for a listed edge, or its centroid is in the closed zone box
when a zone is given, or its centroid classifies on the requested side when a
reference surface is given, or `f` is listed, or `addFaceNeighbours` is on and
`f` is in `faceFaces[g]` for a listed `g`). -/
theorem main_mask_eq_pure_fold (getVolumeType : point → volumeType) (surf1 : triSurface)
    (dict : surfaceSubsetDict) (out : output)
    (h : main getVolumeType surf1 dict = .ok out) :
    out.facesToSubset = pureMask getVolumeType surf1 dict
      ∧ out.facesToSubset.length = surf1.size
      ∧ ∀ f : Nat, f < surf1.size →
          selected out.facesToSubset f
            = xor dict.invertSelection
                (dict.localPoints.any (fun p => adjacent surf1.pointFaces p f)
                  || dict.edges.any (fun e => adjacent surf1.edgeFaces e f)
                  || zoneFaces surf1 dict.zone f
                  || surfaceFaces getVolumeType surf1 dict.surface f
                  || listedFaces surf1 dict.faces dict.addFaceNeighbours f) := by
  obtain ⟨_, sel, hsel, hout⟩ := selectFaces_of_main _ _ _ _ h
  obtain ⟨_, _, _, hmask⟩ := selectFaces_of_ok _ _ _ _ hsel
  have hpure : out.facesToSubset = pureMask getVolumeType surf1 dict := by
    rw [hout, hmask, invert_orMask_replicate]
    rfl
  refine ⟨hpure, ?_, ?_⟩
  · rw [hpure]
    simp [pureMask]
  · intro f hf
    rw [hpure, selected_eq_getElem _ _ (by simpa [pureMask] using hf)]
    simp [pureMask, pureSelected, pickedFaces]

/-- An instance of the pure fold on the tetrahedron: point 0, edge 5, face 3, a
reference surface and the inversion. -/
theorem main_mask_eq_pure_fold_witness :
    main allMixed tetrahedron invertedDict
        = .ok ⟨[false, false, false, false], 0,
            subsetMesh tetrahedron [false, false, false, false]⟩
      ∧ [false, false, false, false] = pureMask allMixed tetrahedron invertedDict :=
  ⟨rfl, (main_mask_eq_pure_fold allMixed tetrahedron invertedDict
    ⟨[false, false, false, false], 0, subsetMesh tetrahedron [false, false, false, false]⟩
    rfl).1⟩

/-- C10: on a surface whose adjacency tables are valid, with a valid dictionary
(zone of size 0 or 2, listed points, edges and faces in range), the five
criteria, each as the code implements it, applied in any permutation of their
order and followed by the inversion, complete with the final mask of the run
in the order of the source; and the run in the order of the source is the
selection of the utility. -/
theorem criteria_order_independent (getVolumeType : point → volumeType)
    (surf1 : triSurface) (dict : surfaceSubsetDict) (hwf : surf1.wellFormed)
    (hz : dict.zone.length = 0 ∨ dict.zone.length = 2)
    (hp : ∀ p ∈ dict.localPoints, 0 ≤ p ∧ p < (surf1.nPoints : Int))
    (he : ∀ e ∈ dict.edges, 0 ≤ e ∧ e < (surf1.nEdges : Int))
    (hf : ∀ g ∈ dict.faces, 0 ≤ g ∧ g < (surf1.size : Int))
    (order : List criterion) (hperm : order.Perm sourceOrder) :
    (∃ out, main getVolumeType surf1 dict = .ok out
        ∧ selectInOrder getVolumeType surf1 dict order = .ok out.facesToSubset
        ∧ selectInOrder getVolumeType surf1 dict sourceOrder = .ok out.facesToSubset)
      ∧ selectInOrder getVolumeType surf1 dict sourceOrder
          = (match selectFaces getVolumeType surf1 dict with
            | .error e => .error e
            | .ok sel => .ok sel.facesToSubset) := by
  have hzn : ¬ (dict.zone.length ≠ 0 ∧ dict.zone.length ≠ 2) := by
    rintro ⟨h0, h2⟩
    rcases hz with h | h
    · exact h0 h
    · exact h2 h
  obtain ⟨n, hn⟩ := selectFaces_ok getVolumeType surf1 dict hwf hp he hf
  have hl0 : (List.replicate surf1.size false).length = surf1.size := List.length_replicate _ _
  have hany : ∀ o : List criterion, o.Perm sourceOrder →
      selectInOrder getVolumeType surf1 dict o
        = .ok (invert dict.invertSelection (orMask (List.replicate surf1.size false)
            (pickedFaces getVolumeType surf1 dict))) := by
    intro o ho
    simp only [selectInOrder, applyCriteria_ok getVolumeType surf1 dict hwf hp he hf o _ hl0]
    congr 2
    apply orMask_congr
    intro f _
    rw [any_perm o sourceOrder _ ho, sourceOrder_any]
  refine ⟨⟨_, main_of_selectFaces _ _ _ hzn _ hn, hany order hperm,
    hany sourceOrder (List.Perm.refl _)⟩, ?_⟩
  rw [hany sourceOrder (List.Perm.refl _), hn]

/-- An instance of the order independence on the tetrahedron: the criteria in
reverse order. -/
theorem criteria_order_independent_witness :
    ∃ out, main allMixed tetrahedron neighboursDict = .ok out
      ∧ selectInOrder allMixed tetrahedron neighboursDict
          [.faces, .surface, .zone, .edges, .localPoints] = .ok out.facesToSubset := by
  obtain ⟨⟨out, h1, h2, _⟩, _⟩ :=
    criteria_order_independent allMixed tetrahedron neighboursDict
      (by decide) (by decide) (by decide) (by decide) (by decide)
      [.faces, .surface, .zone, .edges, .localPoints] (by decide)
  exact ⟨out, h1, h2⟩

/-- C11: on a surface whose adjacency tables are valid, with a mask of one entry
per face and listed labels in range, applying the point criterion to its own
result gives that result again; likewise the edge criterion, and the
explicit-face criterion with the same `addFaceNeighbours` (for the mask; the
counter of the second application is its own). -/
theorem criteria_idempotent (surf1 : triSurface) (markedPoints markedEdges markedFaces : labelList)
    (addFaceNeighbours : Bool) (facesToSubset : boolList)
    (hwf : surf1.wellFormed)
    (hm : facesToSubset.length = surf1.size)
    (hp : ∀ p ∈ markedPoints, 0 ≤ p ∧ p < (surf1.nPoints : Int))
    (he : ∀ e ∈ markedEdges, 0 ≤ e ∧ e < (surf1.nEdges : Int))
    (hf : ∀ g ∈ markedFaces, 0 ≤ g ∧ g < (surf1.size : Int)) :
    (∃ m', pickPoints surf1 markedPoints facesToSubset = .ok m'
        ∧ pickPoints surf1 markedPoints m' = .ok m')
      ∧ (∃ m', pickEdges surf1 markedEdges facesToSubset = .ok m'
        ∧ pickEdges surf1 markedEdges m' = .ok m')
      ∧ (∃ m' n n2, pickFaces surf1 markedFaces addFaceNeighbours facesToSubset = .ok (m', n)
        ∧ pickFaces surf1 markedFaces addFaceNeighbours m' = .ok (m', n2)) := by
  obtain ⟨hpf, hef, hff, hlen⟩ := hwf
  refine ⟨⟨_, pickPoints_ok surf1 markedPoints facesToSubset (by rw [hm]; exact hpf) hp, ?_⟩,
    ⟨_, pickEdges_ok surf1 markedEdges facesToSubset (by rw [hm]; exact hef) he, ?_⟩, ?_⟩
  · rw [pickPoints_ok surf1 markedPoints _ (by rw [length_orMask, hm]; exact hpf) hp,
      orMask_idem]
  · rw [pickEdges_ok surf1 markedEdges _ (by rw [length_orMask, hm]; exact hef) he,
      orMask_idem]
  · obtain ⟨n, hn⟩ := pickFaces_ok surf1 markedFaces addFaceNeighbours facesToSubset hm hf
      (fun _ => ⟨hff, hlen⟩)
    obtain ⟨n2, hn2⟩ := pickFaces_ok surf1 markedFaces addFaceNeighbours
      (orMask facesToSubset (listedFaces surf1 markedFaces addFaceNeighbours))
      (by rw [length_orMask, hm]) hf (fun _ => ⟨hff, hlen⟩)
    rw [orMask_idem] at hn2
    exact ⟨_, n, n2, hn, hn2⟩

/-- An instance of the idempotence on the tetrahedron: point 0, edge 5, face 3
with its neighbours, from the all-false mask. -/
theorem criteria_idempotent_witness :
    (∃ m', pickPoints tetrahedron [0] (List.replicate 4 false) = .ok m'
        ∧ pickPoints tetrahedron [0] m' = .ok m')
      ∧ (∃ m', pickEdges tetrahedron [5] (List.replicate 4 false) = .ok m'
        ∧ pickEdges tetrahedron [5] m' = .ok m')
      ∧ (∃ m' n n2, pickFaces tetrahedron [3] true (List.replicate 4 false) = .ok (m', n)
        ∧ pickFaces tetrahedron [3] true m' = .ok (m', n2)) :=
  criteria_idempotent tetrahedron [0] [5] [3] true (List.replicate 4 false)
    (by decide) (by decide) (by decide) (by decide) (by decide)

/-- C12: the inversion step keeps the length of the mask and flips every entry,
and applying it twice gives back the mask, entry by entry. -/
theorem invert_flips_and_is_involution (facesToSubset : boolList) :
    (invert true facesToSubset).length = facesToSubset.length
      ∧ (∀ i : Nat, i < facesToSubset.length →
          selected (invert true facesToSubset) i = !selected facesToSubset i)
      ∧ invert true (invert true facesToSubset) = facesToSubset
      ∧ (∀ i : Nat, selected (invert true (invert true facesToSubset)) i
          = selected facesToSubset i) := by
  have hinv : invert true (invert true facesToSubset) = facesToSubset := by
    simp only [invert, if_true, List.map_map]
    conv_rhs => rw [← List.map_id facesToSubset]
    apply List.map_congr_left
    intro b _
    cases b <;> rfl
  refine ⟨by simp [invert], ?_, hinv, fun i => by rw [hinv]⟩
  intro i hi
  rw [selected_eq_getElem _ _ (by simpa [invert] using hi), selected_eq_getElem _ _ hi]
  simp only [invert, if_true, List.getElem_map]
  cases facesToSubset[i] <;> rfl

/-- C13: for every surface, a run with empty `localPoints`, `edges` and `faces`,
an empty zone and no reference surface completes; with `invertSelection` on
its final mask has one entry per face and selects every face, with
`invertSelection` off it selects no face. -/
theorem inversion_alone_selects_all (getVolumeType : point → volumeType) (surf1 : triSurface)
    (dict : surfaceSubsetDict)
    (hp : dict.localPoints = []) (he : dict.edges = []) (hf : dict.faces = [])
    (hz : dict.zone = []) (hs : dict.surface = none) :
    (dict.invertSelection = true →
        ∃ out, main getVolumeType surf1 dict = .ok out
          ∧ out.facesToSubset = List.replicate surf1.size true
          ∧ ∀ f : Nat, f < surf1.size → selected out.facesToSubset f = true)
      ∧ (dict.invertSelection = false →
        ∃ out, main getVolumeType surf1 dict = .ok out
          ∧ out.facesToSubset = List.replicate surf1.size false
          ∧ ∀ f : Nat, selected out.facesToSubset f = false) := by
  have hsel : selectFaces getVolumeType surf1 dict
      = .ok ⟨invert dict.invertSelection (List.replicate surf1.size false), 0⟩ := by
    simp [selectFaces, hp, he, hf, hz, hs, pickPoints, pickEdges, pickZone, pickSurface,
      pickFaces]
  have hzn : ¬ (dict.zone.length ≠ 0 ∧ dict.zone.length ≠ 2) := by
    rw [hz]
    simp
  have hmain := main_of_selectFaces getVolumeType surf1 dict hzn _ hsel
  constructor
  · intro hinv
    rw [hinv] at hmain
    have hmask : invert true (List.replicate surf1.size false)
        = List.replicate surf1.size true := by
      simp [invert]
    rw [hmask] at hmain
    refine ⟨_, hmain, rfl, ?_⟩
    intro f hlt
    rw [selected_eq_getElem _ _ (by simpa using hlt)]
    simp
  · intro hinv
    rw [hinv] at hmain
    refine ⟨_, hmain, rfl, ?_⟩
    intro f
    exact selected_replicate_false _ _

/-- An instance of the inversion alone on the tetrahedron: all four faces are
selected, and none when the inversion is off. -/
theorem inversion_alone_selects_all_witness :
    (∃ out, main allMixed tetrahedron invertOnlyDict = .ok out
        ∧ out.facesToSubset = [true, true, true, true])
      ∧ (∃ out, main allMixed tetrahedron emptyDict = .ok out
        ∧ out.facesToSubset = [false, false, false, false]) := by
  obtain ⟨out, h1, h2, _⟩ :=
    (inversion_alone_selects_all allMixed tetrahedron invertOnlyDict rfl rfl rfl rfl rfl).1 rfl
  obtain ⟨out2, h3, h4, _⟩ :=
    (inversion_alone_selects_all allMixed tetrahedron emptyDict rfl rfl rfl rfl rfl).2 rfl
  exact ⟨⟨out, h1, h2⟩, ⟨out2, h3, h4⟩⟩

/-- C14, as the code behaves: each listed label is checked right before it is
used, inside the marking loop. On a surface whose adjacency tables are valid,
with a mask of one entry per face, when a list is made of in-range labels
`pre`, then an out-of-range label `bad`, then any `rest`, the point criterion
(likewise the edge and the explicit-face criterion) stops with the
out-of-range error of `bad`, and the mask at that moment is the mask the
criterion reaches on `pre` alone: nothing is marked for `bad` or for `rest`;
when `bad` comes first the mask is still the starting mask. -/
theorem validation_precedes_use_of_each_label (surf1 : triSurface) (facesToSubset : boolList)
    (addFaceNeighbours : Bool)
    (hwf : surf1.wellFormed) (hm : facesToSubset.length = surf1.size) :
    (∀ (pre rest : labelList) (bad : Int),
        (∀ p ∈ pre, 0 ≤ p ∧ p < (surf1.nPoints : Int)) →
        (bad < 0 ∨ bad ≥ (surf1.nPoints : Int)) →
        ∃ m1, pickPoints surf1 pre facesToSubset = .ok m1
          ∧ pickPoints surf1 (pre ++ bad :: rest) facesToSubset
              = .error ⟨.localPointOutOfRange bad surf1.nPoints, m1⟩
          ∧ (pre = [] → m1 = facesToSubset))
      ∧ (∀ (pre rest : labelList) (bad : Int),
        (∀ e ∈ pre, 0 ≤ e ∧ e < (surf1.nEdges : Int)) →
        (bad < 0 ∨ bad ≥ (surf1.nEdges : Int)) →
        ∃ m1, pickEdges surf1 pre facesToSubset = .ok m1
          ∧ pickEdges surf1 (pre ++ bad :: rest) facesToSubset
              = .error ⟨.edgeOutOfRange bad surf1.nEdges, m1⟩
          ∧ (pre = [] → m1 = facesToSubset))
      ∧ (∀ (pre rest : labelList) (bad : Int),
        (∀ g ∈ pre, 0 ≤ g ∧ g < (surf1.size : Int)) →
        (bad < 0 ∨ bad ≥ (surf1.size : Int)) →
        ∃ m1 n1, pickFaces surf1 pre addFaceNeighbours facesToSubset = .ok (m1, n1)
          ∧ pickFaces surf1 (pre ++ bad :: rest) addFaceNeighbours facesToSubset
              = .error ⟨.faceOutOfRange bad surf1.size, m1⟩
          ∧ (pre = [] → m1 = facesToSubset)) := by
  obtain ⟨hpf, hef, hff, hlen⟩ := hwf
  refine ⟨?_, ?_, ?_⟩
  · intro pre rest bad hpre hbad
    have hok := pickPoints_ok surf1 pre facesToSubset (by rw [hm]; exact hpf) hpre
    refine ⟨_, hok, ?_, ?_⟩
    · rw [pickPoints_eq] at hok
      rw [pickPoints_eq, pointsLoop_append, hok]
      simp only [pointsLoop, if_pos hbad]
    · intro hnil
      subst hnil
      exact orMask_self _ _ (by intro f _ h; simp at h)
  · intro pre rest bad hpre hbad
    have hok := pickEdges_ok surf1 pre facesToSubset (by rw [hm]; exact hef) hpre
    refine ⟨_, hok, ?_, ?_⟩
    · rw [pickEdges_eq] at hok
      rw [pickEdges_eq, edgesLoop_append, hok]
      simp only [edgesLoop, if_pos hbad]
    · intro hnil
      subst hnil
      exact orMask_self _ _ (by intro f _ h; simp at h)
  · intro pre rest bad hpre hbad
    obtain ⟨n1, hok⟩ := pickFaces_ok surf1 pre addFaceNeighbours facesToSubset hm hpre
      (fun _ => ⟨hff, hlen⟩)
    refine ⟨_, n1, hok, ?_, ?_⟩
    · rw [pickFaces_eq] at hok
      rw [pickFaces_eq, facesLoop_append, hok]
      simp only [facesLoop, if_pos hbad]
    · intro hnil
      subst hnil
      exact orMask_self _ _ (by intro f _ h; simp [listedFaces] at h)

/-- An instance on the tetrahedron: `localPoints = [0, 7]` stops at label 7 with
the mask that `localPoints = [0]` reaches. -/
theorem validation_precedes_use_of_each_label_witness :
    ∃ m1, pickPoints tetrahedron [0] (List.replicate 4 false) = .ok m1
      ∧ pickPoints tetrahedron ([0] ++ 7 :: []) (List.replicate 4 false)
          = .error ⟨.localPointOutOfRange 7 tetrahedron.nPoints, m1⟩ := by
  obtain ⟨m1, h1, h2, _⟩ :=
    (validation_precedes_use_of_each_label tetrahedron (List.replicate 4 false) false
      (by decide) (by decide)).1 [0] [] 7 (by decide) (by decide)
  exact ⟨m1, h1, h2⟩

/-- C14 fails as stated: on the tetrahedron, from the all-false mask, the point
list `[0, 7]`, the edge list `[0, 6]` and the face list `[0, 4]` each hold an
out-of-range label, and each criterion stops with a mask in which the faces of
the first, valid label are already marked, not with the mask it started
with. -/
theorem validation_is_interleaved_with_marking :
    pickPoints tetrahedron [0, 7] (List.replicate 4 false)
        = .error ⟨.localPointOutOfRange 7 4, [true, true, true, false]⟩
      ∧ pickEdges tetrahedron [0, 6] (List.replicate 4 false)
        = .error ⟨.edgeOutOfRange 6 6, [true, true, false, false]⟩
      ∧ pickFaces tetrahedron [0, 4] false (List.replicate 4 false)
        = .error ⟨.faceOutOfRange 4 4, [true, false, false, false]⟩
      ∧ ¬ (∃ e, pickPoints tetrahedron [0, 7] (List.replicate 4 false) = .error e
            ∧ e.facesToSubset = List.replicate 4 false) := by
  refine ⟨rfl, rfl, rfl, ?_⟩
  rintro ⟨e, he, hmask⟩
  have h : pickPoints tetrahedron [0, 7] (List.replicate 4 false)
      = .error ⟨.localPointOutOfRange 7 4, [true, true, true, false]⟩ := rfl
  rw [h] at he
  have := Except.error.inj he
  rw [← this] at hmask
  revert hmask
  decide

/-- C15: on a surface whose adjacency tables are valid, with a valid dictionary,
the selection is the all-false mask of one entry per face, then the five
criteria, then the inversion; each criterion, applied to any mask of one
entry per face, completes with a mask of the same length in which every face
selected before is still selected; the inversion, when on, turns every
selected face into an unselected one, and when off leaves the mask as it
is. -/
theorem criteria_only_turn_entries_true (getVolumeType : point → volumeType)
    (surf1 : triSurface) (dict : surfaceSubsetDict) (hwf : surf1.wellFormed)
    (hp : ∀ p ∈ dict.localPoints, 0 ≤ p ∧ p < (surf1.nPoints : Int))
    (he : ∀ e ∈ dict.edges, 0 ≤ e ∧ e < (surf1.nEdges : Int))
    (hf : ∀ g ∈ dict.faces, 0 ≤ g ∧ g < (surf1.size : Int)) :
    ((List.replicate surf1.size false).length = surf1.size
        ∧ (∀ f : Nat, selected (List.replicate surf1.size false) f = false)
        ∧ ∃ m n, applyCriteria getVolumeType surf1 dict sourceOrder
              (List.replicate surf1.size false) = .ok m
          ∧ selectFaces getVolumeType surf1 dict
              = .ok ⟨invert dict.invertSelection m, n⟩)
      ∧ (∀ (c : criterion) (facesToSubset : boolList), facesToSubset.length = surf1.size →
          ∃ m', applyCriterion getVolumeType surf1 dict c facesToSubset = .ok m'
            ∧ m'.length = surf1.size
            ∧ ∀ f : Nat, selected facesToSubset f = true → selected m' f = true)
      ∧ (∀ (facesToSubset : boolList) (f : Nat), f < facesToSubset.length →
          selected facesToSubset f = true → selected (invert true facesToSubset) f = false)
      ∧ (∀ facesToSubset : boolList, invert false facesToSubset = facesToSubset) := by
  have hl0 : (List.replicate surf1.size false).length = surf1.size := List.length_replicate _ _
  refine ⟨⟨hl0, selected_replicate_false _, ?_⟩, ?_, ?_, ?_⟩
  · obtain ⟨n, hn⟩ := selectFaces_ok getVolumeType surf1 dict hwf hp he hf
    refine ⟨_, n, applyCriteria_ok getVolumeType surf1 dict hwf hp he hf sourceOrder _ hl0, ?_⟩
    rw [hn]
    congr 3
    apply orMask_congr
    intro f _
    rw [sourceOrder_any]
  · intro c m hm
    refine ⟨_, applyCriterion_ok getVolumeType surf1 dict hwf hp he hf c m hm, ?_, ?_⟩
    · rw [length_orMask, hm]
    · intro f hs
      exact (selected_orMask_iff _ _ _).2 (Or.inl hs)
  · intro m f hlt hs
    rw [selected_eq_getElem _ _ hlt] at hs
    rw [selected_eq_getElem _ _ (by simpa [invert] using hlt)]
    simp [invert, hs]
  · intro m
    simp [invert]

/-- An instance on the tetrahedron with the dictionary of point 0, edge 5 and
face 3 with its neighbours: the face criterion keeps face 1 selected. -/
theorem criteria_only_turn_entries_true_witness :
    ∃ m', applyCriterion allMixed tetrahedron neighboursDict criterion.faces
          [false, true, false, false] = .ok m'
      ∧ m'.length = tetrahedron.size
      ∧ ∀ f : Nat, selected [false, true, false, false] f = true → selected m' f = true :=
  (criteria_only_turn_entries_true allMixed tetrahedron neighboursDict
    (by decide) (by decide) (by decide) (by decide)).2.1 criterion.faces
    [false, true, false, false] (by decide)

/-- C16: for every surface and every mask, the compaction `subsetMesh` gives a
`faceMap` that is strictly increasing and holds exactly the face indices
whose mask entry is true, and a `pointMap` that is strictly increasing (so
its labels are distinct), holds the three point labels of every retained
face, and holds nothing else. -/
theorem subsetMesh_maps_strictly_increasing (surf1 : triSurface) (facesToSubset : boolList) :
    List.Pairwise (fun p q : Int => p < q) (subsetMesh surf1 facesToSubset).faceMap
      ∧ (∀ l : Int, l ∈ (subsetMesh surf1 facesToSubset).faceMap ↔
          ∃ f : Nat, l = (f : Int) ∧ f < surf1.size ∧ selected facesToSubset f = true)
      ∧ List.Pairwise (fun p q : Int => p < q) (subsetMesh surf1 facesToSubset).pointMap
      ∧ (subsetMesh surf1 facesToSubset).pointMap.Nodup
      ∧ (∀ (f : Nat) (tri : triFace), selected facesToSubset f = true →
          surf1.faces[f]? = some tri →
          tri.a ∈ (subsetMesh surf1 facesToSubset).pointMap
            ∧ tri.b ∈ (subsetMesh surf1 facesToSubset).pointMap
            ∧ tri.c ∈ (subsetMesh surf1 facesToSubset).pointMap)
      ∧ (∀ p ∈ (subsetMesh surf1 facesToSubset).pointMap,
          ∃ (f : Nat) (tri : triFace), selected facesToSubset f = true
            ∧ surf1.faces[f]? = some tri ∧ p ∈ tri.labels) := by
  refine ⟨?_, ?_, ?_, pointMap_nodup surf1 facesToSubset, ?_, ?_⟩
  · rw [subsetMesh_faceMap]
    apply List.Pairwise.map _ _ ((List.pairwise_lt_range surf1.size).filter _)
    intro a b hab
    exact Int.ofNat_lt.2 hab
  · intro l
    rw [subsetMesh_faceMap]
    simp only [List.mem_map, List.mem_filter, List.mem_range]
    constructor
    · rintro ⟨f, ⟨hlt, hs⟩, rfl⟩
      exact ⟨f, rfl, hlt, hs⟩
    · rintro ⟨f, rfl, hlt, hs⟩
      exact ⟨f, ⟨hlt, hs⟩, rfl⟩
  · exact (pointMap_sorted_le surf1 facesToSubset).lt_of_le (pointMap_nodup surf1 facesToSubset)
  · intro f tri hs hget
    refine ⟨?_, ?_, ?_⟩ <;>
      exact (mem_pointMap surf1 facesToSubset _).2
        ⟨f, tri, hs, hget, by simp [triFace.labels]⟩
  · intro p hp
    exact (mem_pointMap surf1 facesToSubset p).1 hp

/-- C17, as the compaction behaves: for a surface whose faces index its point
field and in which every point is referred to by some face, compacting with
the mask that is true for every face gives the identity `pointMap` and
`faceMap` and a surface with the points and the faces of the input; for every
surface, with no condition on its points or faces, compacting with the
all-false mask gives no point, no face and empty maps. -/
theorem subsetMesh_full_and_empty_selection (surf1 : triSurface) :
    ((∀ tri ∈ surf1.faces, ∀ l ∈ tri.labels, 0 ≤ l ∧ l < (surf1.points.length : Int)) →
        (∀ i : Nat, i < surf1.points.length → ∃ tri ∈ surf1.faces, (i : Int) ∈ tri.labels) →
        (subsetMesh surf1 (List.replicate surf1.size true)).pointMap
            = (List.range surf1.points.length).map (fun i : Nat => (i : Int))
          ∧ (subsetMesh surf1 (List.replicate surf1.size true)).faceMap
            = (List.range surf1.size).map (fun f : Nat => (f : Int))
          ∧ (subsetMesh surf1 (List.replicate surf1.size true)).surf2.points = surf1.points
          ∧ (subsetMesh surf1 (List.replicate surf1.size true)).surf2.faces = surf1.faces)
      ∧ subsetMesh surf1 (List.replicate surf1.size false) = ⟨⟨[], []⟩, [], []⟩ := by
  constructor
  · intro hfaces hused
    have hretained : ((List.range surf1.size).filter
          (fun f => selected (List.replicate surf1.size true) f)).filterMap
          (fun f => surf1.faces[f]?) = surf1.faces := by
      rw [filter_selected_all_true]
      exact filterMap_getElem?_range surf1.faces
    have hpm : (subsetMesh surf1 (List.replicate surf1.size true)).pointMap
        = (List.range surf1.points.length).map (fun i : Nat => (i : Int)) := by
      apply List.eq_of_perm_of_sorted _ (pointMap_sorted_le _ _) (sorted_le_range_cast _)
      apply (List.perm_ext_iff_of_nodup (pointMap_nodup _ _) (nodup_range_cast _)).2
      intro l
      rw [subsetMesh_pointMap, hretained, List.mem_insertionSort, List.mem_dedup,
        List.mem_flatten, mem_range_cast]
      constructor
      · rintro ⟨ls, hls, hl⟩
        obtain ⟨tri, htri, rfl⟩ := List.mem_map.1 hls
        exact hfaces tri htri l hl
      · rintro ⟨h0, hlt⟩
        obtain ⟨tri, htri, hmem⟩ := hused l.toNat (by omega)
        refine ⟨tri.labels, List.mem_map.2 ⟨tri, htri, rfl⟩, ?_⟩
        rwa [Int.toNat_of_nonneg h0] at hmem
    refine ⟨hpm, ?_, ?_, ?_⟩
    · rw [subsetMesh_faceMap, filter_selected_all_true]
    · rw [subsetMesh_points, hpm, map_pointAt_range]
    · rw [subsetMesh_faces, hretained, hpm]
      conv_rhs => rw [← List.map_id surf1.faces]
      apply List.map_congr_left
      intro tri htri
      have hidx : ∀ l ∈ tri.labels,
          ((List.indexOf l ((List.range surf1.points.length).map (fun i : Nat => (i : Int)))
            : Nat) : Int) = l := by
        intro l hl
        obtain ⟨h0, hlt⟩ := hfaces tri htri l hl
        have := indexOf_range_cast surf1.points.length l.toNat (by omega)
        rw [Int.toNat_of_nonneg h0] at this
        rw [this, Int.toNat_of_nonneg h0]
      rw [hidx tri.a (by simp [triFace.labels]), hidx tri.b (by simp [triFace.labels]),
        hidx tri.c (by simp [triFace.labels])]
      rfl
  · simp only [subsetMesh, filter_selected_all_false]
    rfl

/-- An instance of the compaction: on the tetrahedron, whose four points are all
used, the full selection gives back its points and faces; on `looseSurface`,
which has a point no face refers to, the empty selection gives the empty
surface. -/
theorem subsetMesh_full_and_empty_selection_witness :
    ((subsetMesh tetrahedron (List.replicate tetrahedron.size true)).pointMap
          = (List.range tetrahedron.points.length).map (fun i : Nat => (i : Int))
        ∧ (subsetMesh tetrahedron (List.replicate tetrahedron.size true)).faceMap
          = (List.range tetrahedron.size).map (fun f : Nat => (f : Int))
        ∧ (subsetMesh tetrahedron (List.replicate tetrahedron.size true)).surf2.points
          = tetrahedron.points
        ∧ (subsetMesh tetrahedron (List.replicate tetrahedron.size true)).surf2.faces
          = tetrahedron.faces)
      ∧ subsetMesh looseSurface (List.replicate looseSurface.size false) = ⟨⟨[], []⟩, [], []⟩ :=
  ⟨(subsetMesh_full_and_empty_selection tetrahedron).1 (by decide) (by decide),
   (subsetMesh_full_and_empty_selection looseSurface).2⟩

/-- C17 fails as stated: the surface `looseSurface` has four points, the fourth
used by no face; compacting it with the all-true mask gives the `pointMap`
`[0, 1, 2]` and three points, not the four points of the input. -/
theorem subsetMesh_drops_unused_points :
    looseSurface.faces = [⟨0, 1, 2⟩]
      ∧ looseSurface.points.length = 4
      ∧ (subsetMesh looseSurface (List.replicate looseSurface.size true)).pointMap = [0, 1, 2]
      ∧ (subsetMesh looseSurface (List.replicate looseSurface.size true)).surf2.points.length
          = 3
      ∧ (subsetMesh looseSurface (List.replicate looseSurface.size true)).surf2.points
          ≠ looseSurface.points := by
  refine ⟨rfl, rfl, rfl, rfl, ?_⟩
  intro h
  have hlen := congrArg List.length h
  revert hlen
  decide

/-- C18: on a surface whose `faceFaces` is valid, with a mask of one entry per
face and listed faces in range, the explicit-face criterion completes, and
with `nFresh` the number of list positions at which the listed face was not
yet selected when it was reached: the number of selected faces grows by
exactly `nFaceNeighbours + nFresh`; so `nFaceNeighbours` is at most the number
of faces newly selected by the criterion (no face is counted twice), `nFresh`
is at most the length of the list, and `nFaceNeighbours` is 0 when
`addFaceNeighbours` is off. -/
theorem nFaceNeighbours_accounts_for_growth (surf1 : triSurface) (markedFaces : labelList)
    (addFaceNeighbours : Bool) (facesToSubset : boolList)
    (hm : facesToSubset.length = surf1.size)
    (hl : ∀ g ∈ markedFaces, 0 ≤ g ∧ g < (surf1.size : Int))
    (hadj : addFaceNeighbours = true →
      validFaceLabels surf1 surf1.faceFaces ∧ surf1.faceFaces.length = surf1.size) :
    ∃ m' nFaceNeighbours nFresh,
      pickFaces surf1 markedFaces addFaceNeighbours facesToSubset = .ok (m', nFaceNeighbours)
        ∧ facesLoopCounting surf1 addFaceNeighbours markedFaces facesToSubset 0 0
            = .ok (m', nFaceNeighbours, nFresh)
        ∧ nSelected facesToSubset ≤ nSelected m'
        ∧ nSelected m' - nSelected facesToSubset = nFaceNeighbours + nFresh
        ∧ nFaceNeighbours ≤ nSelected m' - nSelected facesToSubset
        ∧ nFresh ≤ markedFaces.length
        ∧ (addFaceNeighbours = false → nFaceNeighbours = 0) := by
  obtain ⟨n, hn⟩ := pickFaces_ok surf1 markedFaces addFaceNeighbours facesToSubset hm hl hadj
  have hloop := hn
  rw [pickFaces_eq, facesLoop_eq_counting surf1 addFaceNeighbours markedFaces facesToSubset 0 0]
    at hloop
  cases hc : facesLoopCounting surf1 addFaceNeighbours markedFaces facesToSubset 0 0 with
  | error e =>
    rw [hc] at hloop
    cases hloop
  | ok r =>
    obtain ⟨m', n', k'⟩ := r
    rw [hc] at hloop
    simp only [Except.ok.injEq, Prod.mk.injEq] at hloop
    obtain ⟨hm', hn'⟩ := hloop
    obtain ⟨h1, h2, h3⟩ := facesLoopCounting_count _ _ _ _ _ _ _ _ _ hc
    subst hn'
    refine ⟨m', n', k', ?_, rfl, by omega, by omega, by omega, by omega, h3⟩
    rw [hn, hm']

/-- An instance on the tetrahedron: faces `[0, 1, 0]` with their neighbours, from
the all-false mask; face 0 is fresh, face 1 is reached as a neighbour first,
the second 0 is already selected: 4 faces selected, 3 as neighbours, 1
fresh. -/
theorem nFaceNeighbours_accounts_for_growth_witness :
    (∃ m' nFaceNeighbours nFresh,
        pickFaces tetrahedron [0, 1, 0] true (List.replicate 4 false)
            = .ok (m', nFaceNeighbours)
          ∧ facesLoopCounting tetrahedron true [0, 1, 0] (List.replicate 4 false) 0 0
              = .ok (m', nFaceNeighbours, nFresh)
          ∧ nSelected (List.replicate 4 false) ≤ nSelected m'
          ∧ nSelected m' - nSelected (List.replicate 4 false) = nFaceNeighbours + nFresh
          ∧ nFaceNeighbours ≤ nSelected m' - nSelected (List.replicate 4 false)
          ∧ nFresh ≤ ([0, 1, 0] : labelList).length
          ∧ (true = false → nFaceNeighbours = 0))
      ∧ facesLoopCounting tetrahedron true [0, 1, 0] (List.replicate 4 false) 0 0
          = .ok ([true, true, true, true], 3, 1) :=
  ⟨nFaceNeighbours_accounts_for_growth tetrahedron [0, 1, 0] true (List.replicate 4 false)
    (by decide) (by decide) (fun _ => by decide), rfl⟩

/-- C19: on a surface whose adjacency tables hold only valid face indices (and
whose `faceFaces` has one entry per face), whatever the dictionary lists, no
subscript of the mask or of an adjacency table leaves its list: the run never
stops on a subscript outside its list, an out-of-range listed label stops it
with its own out-of-range error instead; the mask has one entry per face at
its initialisation, after each criterion whether it completes or stops, and
after the inversion. -/
theorem subscripts_stay_in_bounds (getVolumeType : point → volumeType) (surf1 : triSurface)
    (dict : surfaceSubsetDict) (hwf : surf1.wellFormed) :
    (∀ (i : Int) (n : Nat), main getVolumeType surf1 dict ≠ .error (.checkIndex i n))
      ∧ (∀ e, selectFaces getVolumeType surf1 dict = .error e →
          e.error.isCheckIndex = false ∧ e.facesToSubset.length = surf1.size)
      ∧ (∀ sel, selectFaces getVolumeType surf1 dict = .ok sel →
          sel.facesToSubset.length = surf1.size)
      ∧ (List.replicate surf1.size false).length = surf1.size
      ∧ (∀ (c : criterion) (facesToSubset : boolList), facesToSubset.length = surf1.size →
          (∀ m', applyCriterion getVolumeType surf1 dict c facesToSubset = .ok m' →
              m'.length = surf1.size)
            ∧ (∀ e, applyCriterion getVolumeType surf1 dict c facesToSubset = .error e →
              e.error.isCheckIndex = false ∧ e.facesToSubset.length = surf1.size))
      ∧ (∀ (invertSelection : Bool) (facesToSubset : boolList),
          (invert invertSelection facesToSubset).length = facesToSubset.length) := by
  refine ⟨?_, selectFaces_error_safe getVolumeType surf1 dict hwf, ?_,
    List.length_replicate _ _, applyCriterion_safe getVolumeType surf1 dict hwf,
    length_invert⟩
  · intro i n hmain
    by_cases hz : dict.zone.length ≠ 0 ∧ dict.zone.length ≠ 2
    · simp only [main, if_pos hz] at hmain
      cases hmain
    · simp only [main, if_neg hz] at hmain
      split at hmain
      · rename_i e he
        have hsafe := (selectFaces_error_safe getVolumeType surf1 dict hwf e he).1
        have : e.error = .checkIndex i n := Except.error.inj hmain
        rw [this] at hsafe
        cases hsafe
      · cases hmain
  · intro sel hsel
    rw [(selectFaces_of_ok _ _ _ _ hsel).2.2.2, length_invert, length_orMask,
      List.length_replicate]

/-- An instance on the tetrahedron with the dictionary that lists point 9, edge
-1 and face 4: the run stops, and not on a subscript. -/
theorem subscripts_stay_in_bounds_witness :
    tetrahedron.wellFormed
      ∧ (∀ (i : Int) (n : Nat),
          main allMixed tetrahedron badLabelsDict ≠ .error (.checkIndex i n))
      ∧ main allMixed tetrahedron badLabelsDict = .error (.localPointOutOfRange 9 4) :=
  ⟨by decide,
   (subscripts_stay_in_bounds allMixed tetrahedron badLabelsDict (by decide)).1, rfl⟩

end surfaceSubset
